import Mathlib

/-!
BlueBus command console (`firmware/application/lib/cli.c`) and EEPROM driver
(`firmware/bootloader/lib/eeprom.c`).

A shallow embedding of `CLIInit` and `CLIProcess`, and of the byte read and
write of the EEPROM driver over a chip given as a parameter.  Bytes are natural
numbers (0..255), C strings are lists of bytes without their terminating NUL,
buffers are lists of bytes with it.  The calls that leave `cli.c` (UART, log,
configuration, Bluetooth module, IBus) are recorded as a trace of `Event`s.
A read of a `msgBuf` slot that holds no pointer is undefined behaviour in C and
is reported as a `Fault`.
-/

namespace BlueBus

/-! ## C strings -/

/-- Bytes of a string literal, without the terminating NUL. -/
def str (s : String) : List Nat := s.toList.map Char.toNat

/-- The C string held in a buffer: the bytes before its first NUL. -/
def cstr (buf : List Nat) : List Nat := buf.takeWhile (fun b => b != 0)

/-- Library `strlen` of a C string. -/
def strlen (s : List Nat) : Nat := s.length

/-- Library `strcpy`: the destination receives the string and its NUL. -/
def strcpy (src : List Nat) : List Nat := cstr src ++ [0]

/-- Library `strcmp` on two C strings; only the sign of the result is
specified by C. -/
def strcmp : List Nat → List Nat → Int
  | [], [] => 0
  | [], _ :: _ => -1
  | _ :: _, [] => 1
  | a :: as, b :: bs => if a < b then -1 else if b < a then 1 else strcmp as bs

/-- Library `strtok`, one call.  The argument is the C string at the scan
position (the first argument on the first call, the saved position on a call
with `NULL`); the result is `none` for a `NULL` return, else the token and the
C string at the new saved position. -/
def strtok (s : List Nat) (delim : List Nat) : Option (List Nat × List Nat) :=
  match s.dropWhile (fun b => delim.contains b) with
  | [] => none
  | c :: cs =>
    some ((c :: cs).takeWhile (fun b => !delim.contains b),
          ((c :: cs).dropWhile (fun b => !delim.contains b)).drop 1)

/-! ## Constants of the missing headers -/

/-- Modelled from the spec: `cli.h` is missing; the frame terminator is the
carriage return 0x0D. -/
def CLI_MSG_END_CHAR : Nat := 0x0D

/-- Modelled from the spec: `cli.h` is missing; the field delimiter is the
space byte. -/
def CLI_MSG_DELIMETER : Nat := 0x20

/-- Values of the macros of `ibus.h` and `config.h`, which are missing; they
are parameters of the model. -/
structure Consts where
  IBus_UI_CD53 : Nat
  IBus_UI_BMBT : Nat
  CONFIG_DEVICE_LOG_BT : Nat
  CONFIG_DEVICE_LOG_IBUS : Nat
  CONFIG_DEVICE_LOG_SYSTEM : Nat
  CONFIG_DEVICE_LOG_UI : Nat

/-- The two UI mode macros are distinct byte values. -/
def Consts.uiModesOk (k : Consts) : Prop :=
  k.IBus_UI_CD53 < 256 ∧ k.IBus_UI_BMBT < 256 ∧ k.IBus_UI_CD53 ≠ k.IBus_UI_BMBT

instance (k : Consts) : Decidable k.uiModesOk := by
  unfold Consts.uiModesOk; exact inferInstance

/-- A set of macro values used to run the model on concrete inputs. -/
def sampleConsts : Consts := ⟨1, 2, 4, 5, 6, 7⟩

/-- The audio interface macros of `bc127.h` (missing), kept symbolic. -/
inductive BC127Audio
  | BC127_AUDIO_I2S
  | BC127_AUDIO_SPDIF
  deriving DecidableEq

/-! ## The receive queue -/

/-- The part of `CharQueue_t` the console uses: 256 cells and two cursors. -/
structure CharQueue where
  data : Nat → Nat
  readCursor : Nat
  writeCursor : Nat

/-- The `n` cells of a 256-cell ring from index `start` on, indices wrapping
modulo 256. -/
def window (data : Nat → Nat) (start n : Nat) : List Nat :=
  (List.range n).map (fun j => data ((start + j) % 256))

/-- The bytes received and not yet consumed: the cells from the read cursor up
to the write cursor. -/
def CharQueue.unread (q : CharQueue) : List Nat :=
  window q.data q.readCursor ((q.writeCursor + 256 - q.readCursor) % 256)

/-- Modelled from the spec: `char_queue.c` is missing; `CharQueueGet` returns
the byte stored at an index. -/
def CharQueueGet (q : CharQueue) (idx : Nat) : Nat := q.data idx

/-- Forward scan of `CharQueueSeek` over the unread bytes, counting from
`cnt`. -/
def seekFrom (needle : Nat) : List Nat → Nat → Nat
  | [], _ => 0
  | b :: bs, cnt => if b = needle then cnt else seekFrom needle bs (cnt + 1)

/-- Modelled from the spec: `char_queue.c` is missing; `CharQueueSeek` scans
forward from the read cursor and returns the byte count up to and including
the first occurrence of the needle, or zero when it is absent. -/
def CharQueueSeek (q : CharQueue) (needle : Nat) : Nat :=
  seekFrom needle q.unread 1

/-- Modelled from the spec: `char_queue.c` is missing; `CharQueueNext` returns
the byte at the read cursor and advances the cursor, wrapping modulo 256. -/
def CharQueueNext (q : CharQueue) : Nat × CharQueue :=
  (q.data q.readCursor, { q with readCursor := (q.readCursor + 1) % 256 })

/-! ## Configuration -/

/-- Modelled from the spec: `config.c` is missing; the persistent
configuration holds the UI mode, the per-subsystem log flags and the
bootloader flag. -/
structure Config where
  uiMode : Nat
  log : Nat → Nat
  bootloaderMode : Nat

/-- Modelled from the spec: `config.c` is missing; stores the UI mode. -/
def ConfigSetUIMode (cfg : Config) (uiMode : Nat) : Config :=
  { cfg with uiMode := uiMode }

/-- Modelled from the spec: `config.c` is missing; returns the UI mode last
stored. -/
def ConfigGetUIMode (cfg : Config) : Nat := cfg.uiMode

/-- Modelled from the spec: `config.c` is missing; stores the log flag of one
subsystem. -/
def ConfigSetLog (cfg : Config) (system value : Nat) : Config :=
  { cfg with log := fun s => if s = system then value else cfg.log s }

/-- Modelled from the spec: `config.c` is missing; stores the bootloader
flag. -/
def ConfigSetBootloaderMode (cfg : Config) (mode : Nat) : Config :=
  { cfg with bootloaderMode := mode }

/-- A configuration in which nothing has been stored yet. -/
def emptyConfig : Config := ⟨0xFF, fun _ => 0, 0⟩

/-! ## Trace and faults -/

/-- The calls `CLIProcess` makes outside `cli.c`, in program order. -/
inductive Event
  | UARTSendChar (c : Nat)
  | LogRaw (s : String)
  | LogError (s : String)
  | ConfigSetBootloaderMode (mode : Nat)
  | Nop
  | reset
  | BC127CommandReset
  | BC127CommandUnpair
  | IBusCommandGTGetDiagnostics
  | IBusCommandRADGetDiagnostics
  | BC127CommandSetAudioDigital (mode : BC127Audio) (a b c : String)
  | ConfigSetUIMode (uiMode : Nat)
  | IBusCommandIgnitionStatus (status : Nat)
  | ConfigSetLog (system value : Nat)
  deriving DecidableEq

/-- Ways a run of the model stops without a defined result. -/
inductive Fault
  /-- A loop of the model used up its iteration bound. -/
  | fuel
  /-- Access to `msgBuf[i]` with `i` not below `delimCount`. -/
  | outOfBounds (i : Nat)
  /-- Read of `msgBuf[i]`, a slot the `strtok` loop never wrote. -/
  | uninitialised (i : Nat)
  deriving DecidableEq

/-! ## `CLI_t`, `CLIInit`, `CLIProcess` -/

/-- The fields of `CLI_t` that `CLIProcess` uses: the receive queue of the
UART and the echo cursor. -/
structure CLI_t where
  rxQueue : CharQueue
  lastChar : Nat

/-- The cursors of a console are 8-bit values. -/
def CLI_t.cursorsOk (cli : CLI_t) : Prop :=
  cli.lastChar < 256 ∧ cli.rxQueue.readCursor < 256 ∧ cli.rxQueue.writeCursor < 256

instance (cli : CLI_t) : Decidable cli.cursorsOk := by
  unfold CLI_t.cursorsOk; exact inferInstance

/-- The bytes the echo loop has not relayed yet: the cells from the echo
cursor up to the write cursor. -/
def CLI_t.pending (cli : CLI_t) : List Nat :=
  window cli.rxQueue.data cli.lastChar ((cli.rxQueue.writeCursor + 256 - cli.lastChar) % 256)

/-- Function `CLIInit`, lines 20-28. -/
def CLIInit (rxQueue : CharQueue) : CLI_t := { rxQueue := rxQueue, lastChar := 0 }

/-- The echo loop, lines 41-48, with an iteration bound. -/
def echoLoop : Nat → CLI_t → List Event → Except Fault (CLI_t × List Event)
  | 0, cli, out =>
    if cli.lastChar ≠ cli.rxQueue.writeCursor then .error Fault.fuel else .ok (cli, out)
  | n + 1, cli, out =>
    if cli.lastChar ≠ cli.rxQueue.writeCursor then
      echoLoop n
        { cli with lastChar := if cli.lastChar ≥ 255 then 0 else cli.lastChar + 1 }
        (out ++ [Event.UARTSendChar (CharQueueGet cli.rxQueue cli.lastChar)])
    else .ok (cli, out)

/-- The copy loop, lines 56-68: `n` iterations remain, `msg` holds the bytes
written so far. -/
def readMessage : Nat → CharQueue → List Nat → Nat → CharQueue × List Nat × Nat
  | 0, q, msg, delimCount => (q, msg, delimCount)
  | n + 1, q, msg, delimCount =>
    let (c, q1) := CharQueueNext q
    let delimCount1 := if c = CLI_MSG_DELIMETER then (delimCount + 1) % 256 else delimCount
    let b := if c ≠ CLI_MSG_END_CHAR then c else 0
    readMessage n q1 (msg ++ [b]) delimCount1

/-- The `strtok` loop, lines 77-80, with an iteration bound: `p` is the last
result of `strtok`, `i` the 8-bit slot counter, `msgBuf` the slot array. -/
def fillMsgBuf : Nat → Option (List Nat × List Nat) → Nat → List (Option (List Nat)) →
    Except Fault (List (Option (List Nat)))
  | _, none, _, msgBuf => .ok msgBuf
  | 0, some _, _, _ => .error Fault.fuel
  | n + 1, some (tok, rest), i, msgBuf =>
    if i < msgBuf.length then
      fillMsgBuf n (strtok rest (str " ")) ((i + 1) % 256) (msgBuf.set i (some tok))
    else .error (Fault.outOfBounds i)

/-- Lines 72-80: copy the message, declare `msgBuf[delimCount]` and fill it. -/
def tokenize (msg : List Nat) (delimCount : Nat) : Except Fault (List (Option (List Nat))) :=
  let tmpMsg := strcpy msg
  fillMsgBuf (tmpMsg.length) (strtok (cstr tmpMsg) (str " ")) 0 (List.replicate delimCount none)

/-- Read of `msgBuf[i]` as a string argument. -/
def slot (msgBuf : List (Option (List Nat))) (i : Nat) : Except Fault (List Nat) :=
  match msgBuf.get? i with
  | some (some t) => .ok t
  | some none => .error (Fault.uninitialised i)
  | none => .error (Fault.outOfBounds i)

/-- The help text, lines 173-186. -/
def helpText : List Event :=
  [ Event.LogRaw "BlueBus Firmware version: 1.0.3\r\n",
    Event.LogRaw "Available Commands:\r\n",
    Event.LogRaw "    BOOTLOADER - Reboot into the bootloader immediately\r\n",
    Event.LogRaw "    BTREBOOT - Reboot the BC127\r\n",
    Event.LogRaw "    BTRESETPDL - Unpair all devices from the BC127\r\n",
    Event.LogRaw "    GET UI - Get the current UI Mode\r\n",
    Event.LogRaw "    REBOOT - Reboot the device\r\n",
    Event.LogRaw "    SET AUDIO x - Set the audio output where x is ANALOG ",
    Event.LogRaw "    or DIGITAL. DIGITAL is the coax output.\r\n",
    Event.LogRaw "    SET IGN x - Send the ignition status message [DEBUG]\r\n",
    Event.LogRaw "    SET LOG x y - Change logging for x (BT, IBUS, SYS, UI)",
    Event.LogRaw "to y (1 = On, 0 = Off)\r\n",
    Event.LogRaw "    SET UI x - Set the UI to x, ",
    Event.LogRaw "where 1 is CD53 and 2 is BMBT\r\n" ]

/-- The `GET` branch, lines 96-108. -/
def dispatchGet (msgBuf : List (Option (List Nat))) (k : Consts) (cfg : Config) :
    Except Fault (Config × List Event) := do
  let t1 ← slot msgBuf 1
  if strcmp t1 (str "IBUSD") = 0 then
    pure (cfg, [Event.IBusCommandGTGetDiagnostics, Event.IBusCommandRADGetDiagnostics])
  else if strcmp t1 (str "UI") = 0 then
    let uiMode := ConfigGetUIMode cfg % 256
    if uiMode = k.IBus_UI_CD53 then
      pure (cfg, [Event.LogRaw "UI Mode: CD53\r\n"])
    else if uiMode = k.IBus_UI_BMBT then
      pure (cfg, [Event.LogRaw "UI Mode: BMBT\r\n"])
    else
      pure (cfg, [Event.LogRaw "UI Mode: Not set or Invalid\r\n"])
  else pure (cfg, [])

/-- The `SET LOG` branch, lines 147-170. -/
def dispatchSetLog (msgBuf : List (Option (List Nat))) (k : Consts) (cfg : Config) :
    Except Fault (Config × List Event) := do
  let t2 ← slot msgBuf 2
  let system :=
    if strcmp t2 (str "BT") = 0 then k.CONFIG_DEVICE_LOG_BT % 256
    else if strcmp t2 (str "IBUS") = 0 then k.CONFIG_DEVICE_LOG_IBUS % 256
    else if strcmp t2 (str "SYS") = 0 then k.CONFIG_DEVICE_LOG_SYSTEM % 256
    else if strcmp t2 (str "UI") = 0 then k.CONFIG_DEVICE_LOG_UI % 256
    else 0xFF
  let t3 ← slot msgBuf 3
  let value :=
    if strcmp t3 (str "0") = 0 then 0
    else if strcmp t3 (str "1") = 0 then 1
    else 0xFF
  if system ≠ 0xFF ∧ value ≠ 0xFF then
    pure (ConfigSetLog cfg system value, [Event.ConfigSetLog system value, Event.LogRaw "Ok\r\n"])
  else
    pure (cfg, [Event.LogRaw "Invalid Parameters for SET LOG\r\n"])

/-- The `SET` branch, lines 112-171. -/
def dispatchSet (msgBuf : List (Option (List Nat))) (k : Consts) (cfg : Config) :
    Except Fault (Config × List Event) := do
  let t1 ← slot msgBuf 1
  if strcmp t1 (str "AUDIO") = 0 then
    let t2 ← slot msgBuf 2
    if strcmp t2 (str "ANALOG") = 0 then
      pure (cfg, [Event.BC127CommandSetAudioDigital BC127Audio.BC127_AUDIO_I2S
        "44100" "64" "100800"])
    else if strcmp t2 (str "DIGITAL") = 0 then
      pure (cfg, [Event.BC127CommandSetAudioDigital BC127Audio.BC127_AUDIO_SPDIF
        "48000" "0" "000000"])
    else pure (cfg, [])
  else if strcmp t1 (str "UI") = 0 then
    let t2 ← slot msgBuf 2
    if strcmp t2 (str "1") = 0 then
      pure (ConfigSetUIMode cfg k.IBus_UI_CD53,
        [Event.ConfigSetUIMode k.IBus_UI_CD53, Event.LogRaw "UI Mode: CD53\r\n"])
    else if strcmp t2 (str "2") = 0 then
      pure (ConfigSetUIMode cfg k.IBus_UI_BMBT,
        [Event.ConfigSetUIMode k.IBus_UI_BMBT, Event.LogRaw "UI Mode: BMBT\r\n"])
    else pure (cfg, [Event.LogError "Invalid UI Mode specified"])
  else if strcmp t1 (str "IGN") = 0 then
    let t2 ← slot msgBuf 2
    if strcmp t2 (str "0") = 0 then
      pure (cfg, [Event.IBusCommandIgnitionStatus 0x00])
    else if strcmp t2 (str "1") = 0 then
      pure (cfg, [Event.IBusCommandIgnitionStatus 0x01])
    else pure (cfg, [])
  else if strcmp t1 (str "LOG") = 0 then
    dispatchSetLog msgBuf k cfg
  else pure (cfg, [])

/-- The dispatch chain, lines 82-189. -/
def dispatch (msgBuf : List (Option (List Nat))) (k : Consts) (cfg : Config) :
    Except Fault (Config × List Event) := do
  let t0 ← slot msgBuf 0
  if strcmp t0 (str "BOOTLOADER") = 0 then
    pure (ConfigSetBootloaderMode cfg 0x01,
      [Event.LogRaw "Rebooting into bootloader\r\n", Event.ConfigSetBootloaderMode 0x01]
        ++ List.replicate 256 Event.Nop ++ [Event.reset])
  else if strcmp t0 (str "BTRESET") = 0 then
    pure (cfg, [Event.BC127CommandReset])
  else if strcmp t0 (str "BTRESETPDL") = 0 then
    pure (cfg, [Event.BC127CommandUnpair])
  else if strcmp t0 (str "GET") = 0 then
    dispatchGet msgBuf k cfg
  else if strcmp t0 (str "REBOOT") = 0 then
    pure (cfg, [Event.reset])
  else if strcmp t0 (str "SET") = 0 then
    dispatchSet msgBuf k cfg
  else if strcmp t0 (str "HELP") = 0 ∨ strlen t0 = 0 then
    pure (cfg, helpText)
  else
    pure (cfg, [Event.LogError "Command Unknown. Try HELP"])

/-- What one call of `CLIProcess` leaves behind. -/
structure Result where
  cli : CLI_t
  config : Config
  events : List Event

/-- Function `CLIProcess`, lines 39-191. -/
def CLIProcess (k : Consts) (cli : CLI_t) (cfg : Config) : Except Fault Result := do
  let (cli1, echo) ← echoLoop 256 cli []
  let messageLength := CharQueueSeek cli1.rxQueue CLI_MSG_END_CHAR % 256
  if messageLength > 0 then
    let (q, msg, delimCount) := readMessage messageLength cli1.rxQueue [] 1
    let msgBuf ← tokenize msg delimCount
    let (cfg1, evs) ← dispatch msgBuf k cfg
    pure ⟨{ cli1 with rxQueue := q }, cfg1, echo ++ [Event.UARTSendChar 0x0A] ++ evs⟩
  else
    pure ⟨cli1, cfg, echo⟩

/-! ## Reference tokenizer -/

/-- Reference tokenizer, following the specification: the maximal non-empty
runs of non-space characters of a text, in order.  They are the pieces the
text falls into when it is cut at every space, the empty pieces dropped. -/
def maximalRuns (text : List Nat) : List (List Nat) :=
  (text.splitOn 0x20).filter (fun t => !t.isEmpty)

/-- The slot array expected after tokenizing a frame `text` (the bytes before
the terminator): the runs of its C string in the first slots, the slots up to
`delimCount` (one more than the number of spaces) unwritten. -/
def slotsOf (text : List Nat) : List (Option (List Nat)) :=
  (maximalRuns (cstr text)).map some ++
    List.replicate (1 + text.count 0x20 - (maximalRuns (cstr text)).length) none

/-- The console after a call that consumed `n` bytes: the read cursor has
advanced by `n` modulo 256 and the echo cursor has caught up with the write
cursor. -/
def consumed (cli : CLI_t) (n : Nat) : CLI_t :=
  { rxQueue := { cli.rxQueue with readCursor := (cli.rxQueue.readCursor + n) % 256 },
    lastChar := cli.rxQueue.writeCursor }

/-- The calls recorded up to the dispatcher when a frame was found: the echo
of the pending bytes, then the newline of line 52. -/
def preamble (cli : CLI_t) : List Event :=
  cli.pending.map Event.UARTSendChar ++ [Event.UARTSendChar 0x0A]

/-- The number of token positions read by the branch of the dispatch chain that
a token list selects: one for a plain command, two for `GET` and for `SET`
with a sub-target the chain does not know, three for `SET AUDIO`, `SET UI` and
`SET IGN`, four for `SET LOG`. -/
def tokensNeeded : List (List Nat) → Nat
  | [] => 1
  | t0 :: ts =>
    if t0 = str "GET" then 2
    else if t0 = str "SET" then
      match ts with
      | [] => 2
      | t1 :: _ =>
        if t1 = str "AUDIO" ∨ t1 = str "UI" ∨ t1 = str "IGN" then 3
        else if t1 = str "LOG" then 4
        else 2
    else 1

/-- The fault raised by a read of `msgBuf[i]` past the `n` written slots of an
array of `size` slots. -/
def missingSlot (size i : Nat) : Fault :=
  if i < size then Fault.uninitialised i else Fault.outOfBounds i

/-! ## Fixtures -/

/-- A queue whose cells hold `bytes` from index 0, nothing consumed. -/
def queueOf (bytes : List Nat) : CharQueue :=
  { data := fun i => bytes.getD i 0, readCursor := 0, writeCursor := bytes.length % 256 }

/-- A console whose echo is up to date and whose queue holds `bytes` unread. -/
def cliOf (bytes : List Nat) : CLI_t :=
  { rxQueue := queueOf bytes, lastChar := bytes.length % 256 }


/-! ## SET LOG arguments -/

/-- The four log system macros are byte values other than the 0xFF sentinel of
line 147. -/
def Consts.logSystemsOk (k : Consts) : Prop :=
  k.CONFIG_DEVICE_LOG_BT < 255 ∧ k.CONFIG_DEVICE_LOG_IBUS < 255 ∧
  k.CONFIG_DEVICE_LOG_SYSTEM < 255 ∧ k.CONFIG_DEVICE_LOG_UI < 255

instance (k : Consts) : Decidable k.logSystemsOk := by
  unfold Consts.logSystemsOk; exact inferInstance

/-- The system names `SET LOG` accepts. -/
def logSystemNames : List (List Nat) := [str "BT", str "IBUS", str "SYS", str "UI"]

/-- The values `SET LOG` accepts. -/
def logValueNames : List (List Nat) := [str "0", str "1"]

/-- The system macro a `SET LOG` system name stands for, as the specification
lists them: BT, IBUS, SYS, UI. -/
def logSystemOf (k : Consts) (s : List Nat) : Nat :=
  if s = str "BT" then k.CONFIG_DEVICE_LOG_BT
  else if s = str "IBUS" then k.CONFIG_DEVICE_LOG_IBUS
  else if s = str "SYS" then k.CONFIG_DEVICE_LOG_SYSTEM
  else k.CONFIG_DEVICE_LOG_UI

/-- The number a `SET LOG` value token stands for. -/
def logValueOf (v : List Nat) : Nat := if v = str "0" then 0 else 1

/-! ## Spaces that yield no token -/

/-- A frame text has a leading space, a trailing space or two consecutive
spaces. -/
def hasSpareSpace (text : List Nat) : Prop :=
  (∃ post, text = 0x20 :: post) ∨ (∃ pre, text = pre ++ [0x20]) ∨
    (∃ pre post, text = pre ++ 0x20 :: 0x20 :: post)

/-! ## Frames that change the configuration -/

/-- The first token is BOOTLOADER. -/
def isBootloaderFrame (toks : List (List Nat)) : Prop :=
  toks.get? 0 = some (str "BOOTLOADER")

/-- The tokens start with SET, UI and then 1 or 2. -/
def isSetUIFrame (toks : List (List Nat)) : Prop :=
  toks.get? 0 = some (str "SET") ∧ toks.get? 1 = some (str "UI") ∧
    (toks.get? 2 = some (str "1") ∨ toks.get? 2 = some (str "2"))

/-- The tokens start with SET, LOG, a system name that resolves and a value
that resolves. -/
def isSetLogFrame (toks : List (List Nat)) : Prop :=
  toks.get? 0 = some (str "SET") ∧ toks.get? 1 = some (str "LOG") ∧
    (∃ s ∈ logSystemNames, toks.get? 2 = some s) ∧
    (∃ v ∈ logValueNames, toks.get? 3 = some v)

/-! ## EEPROM driver (`firmware/bootloader/lib/eeprom.c`)

The driver talks to the chip through the chip-select pin and the SPI buffer
register.  The chip is a parameter of the model: a state with a reaction to a
chip-select write and to a byte exchange.  Every pin write and every byte sent
is recorded on the `wire` trace.
-/

/-- Values of the opcode macros of `eeprom.h`, which is missing; they are
parameters of the model. -/
structure EEPROMOpcodes where
  EEPROM_COMMAND_RDSR : Nat
  EEPROM_COMMAND_WREN : Nat
  EEPROM_COMMAND_READ : Nat
  EEPROM_COMMAND_WRITE : Nat
  EEPROM_COMMAND_GET : Nat

/-- The opcode macros are byte values. -/
def EEPROMOpcodes.areBytes (k : EEPROMOpcodes) : Prop :=
  k.EEPROM_COMMAND_RDSR < 256 ∧ k.EEPROM_COMMAND_WREN < 256 ∧
  k.EEPROM_COMMAND_READ < 256 ∧ k.EEPROM_COMMAND_WRITE < 256 ∧
  k.EEPROM_COMMAND_GET < 256

instance (k : EEPROMOpcodes) : Decidable k.areBytes := by
  unfold EEPROMOpcodes.areBytes; exact inferInstance

/-- The four instruction opcodes are pairwise distinct. -/
def EEPROMOpcodes.areDistinct (k : EEPROMOpcodes) : Prop :=
  k.EEPROM_COMMAND_RDSR ≠ k.EEPROM_COMMAND_WREN ∧
  k.EEPROM_COMMAND_RDSR ≠ k.EEPROM_COMMAND_READ ∧
  k.EEPROM_COMMAND_RDSR ≠ k.EEPROM_COMMAND_WRITE ∧
  k.EEPROM_COMMAND_WREN ≠ k.EEPROM_COMMAND_READ ∧
  k.EEPROM_COMMAND_WREN ≠ k.EEPROM_COMMAND_WRITE ∧
  k.EEPROM_COMMAND_READ ≠ k.EEPROM_COMMAND_WRITE

instance (k : EEPROMOpcodes) : Decidable k.areDistinct := by
  unfold EEPROMOpcodes.areDistinct; exact inferInstance

/-- A set of opcode values used to run the model on concrete inputs. -/
def sampleOpcodes : EEPROMOpcodes := ⟨0x05, 0x06, 0x03, 0x02, 0x00⟩

/-- Modelled from the spec: `eeprom.h` is missing; status bit 0 is the busy
flag. -/
def EEPROM_STATUS_BUSY : Nat := 0x01

/-- What the driver puts on the wire: a level written to the chip-select pin
or a byte clocked out. -/
inductive Wire
  | CS (level : Nat)
  | transfer (byte : Nat)
  deriving DecidableEq

/-- The chip at the other end of the bus. -/
structure SPIDevice (σ : Type) where
  chipSelect : σ → Nat → σ
  exchange : σ → Nat → Nat × σ

/-- The state of the bus: the chip and the trace so far. -/
structure Bus (σ : Type) where
  dev : σ
  wire : List Wire

/-- The assignment `EEPROM_CS_PIN = level`. -/
def setEEPROM_CS_PIN {σ : Type} (D : SPIDevice σ) (b : Bus σ) (level : Nat) : Bus σ :=
  { dev := D.chipSelect b.dev level, wire := b.wire ++ [Wire.CS level] }

/-- Function `EEPROMSend`, lines 49-54: the byte is written to the SPI buffer,
the wait for the receive flag ends when the exchange is done, and the byte
received is returned. -/
def EEPROMSend {σ : Type} (D : SPIDevice σ) (b : Bus σ) (data : Nat) : Nat × Bus σ :=
  ((D.exchange b.dev (data % 256)).1 % 256,
   { dev := (D.exchange b.dev (data % 256)).2,
     wire := b.wire ++ [Wire.transfer (data % 256)] })

/-- The body of the loop of `EEPROMIsReady`, lines 121-124: the status read
and the bus afterwards. -/
def statusPoll {σ : Type} (D : SPIDevice σ) (k : EEPROMOpcodes) (b : Bus σ) : Nat × Bus σ :=
  let b1 := setEEPROM_CS_PIN D b 0
  let r1 := EEPROMSend D b1 k.EEPROM_COMMAND_RDSR
  let r2 := EEPROMSend D r1.2 k.EEPROM_COMMAND_GET
  (r2.1, setEEPROM_CS_PIN D r2.2 1)

/-- The loop of `EEPROMIsReady`, lines 120-125, with an iteration bound. -/
def EEPROMIsReadyLoop {σ : Type} (D : SPIDevice σ) (k : EEPROMOpcodes) :
    Nat → Nat → Bus σ → Except Fault (Bus σ)
  | 0, status, b =>
    if status &&& EEPROM_STATUS_BUSY ≠ 0 then .error Fault.fuel else .ok b
  | n + 1, status, b =>
    if status &&& EEPROM_STATUS_BUSY ≠ 0 then
      EEPROMIsReadyLoop D k n (statusPoll D k b).1 (statusPoll D k b).2
    else .ok b

/-- Function `EEPROMIsReady`, lines 117-126. -/
def EEPROMIsReady {σ : Type} (D : SPIDevice σ) (k : EEPROMOpcodes) (fuel : Nat) (b : Bus σ) :
    Except Fault (Bus σ) :=
  EEPROMIsReadyLoop D k fuel EEPROM_STATUS_BUSY b

/-- Function `EEPROMEnableWrite`, lines 65-73. -/
def EEPROMEnableWrite {σ : Type} (D : SPIDevice σ) (k : EEPROMOpcodes) (fuel : Nat)
    (b : Bus σ) : Except Fault (Bus σ) := do
  let b1 ← EEPROMIsReady D k fuel b
  let b2 := setEEPROM_CS_PIN D b1 0
  let r := EEPROMSend D b2 k.EEPROM_COMMAND_WREN
  let b3 := setEEPROM_CS_PIN D r.2 1
  pure (setEEPROM_CS_PIN D b3 0)

/-- Function `EEPROMReadByte`, lines 137-150; the address is an
`unsigned char`. -/
def EEPROMReadByte {σ : Type} (D : SPIDevice σ) (k : EEPROMOpcodes) (fuel : Nat)
    (address : Nat) (b : Bus σ) : Except Fault (Nat × Bus σ) := do
  let address := address % 256
  let b1 ← EEPROMIsReady D k fuel b
  let b2 := setEEPROM_CS_PIN D b1 0
  let r1 := EEPROMSend D b2 k.EEPROM_COMMAND_READ
  let r2 := EEPROMSend D r1.2 (address >>> 8)
  let r3 := EEPROMSend D r2.2 address
  let r4 := EEPROMSend D r3.2 k.EEPROM_COMMAND_GET
  let data := r4.1 % 256
  pure (data, setEEPROM_CS_PIN D r4.2 1)

/-- Function `EEPROMWriteByte`, lines 163-172; address and data are
`unsigned char`. -/
def EEPROMWriteByte {σ : Type} (D : SPIDevice σ) (k : EEPROMOpcodes) (fuel : Nat)
    (address data : Nat) (b : Bus σ) : Except Fault (Bus σ) := do
  let address := address % 256
  let data := data % 256
  let b1 ← EEPROMEnableWrite D k fuel b
  let r1 := EEPROMSend D b1 k.EEPROM_COMMAND_WRITE
  let r2 := EEPROMSend D r1.2 (address >>> 8)
  let r3 := EEPROMSend D r2.2 address
  let r4 := EEPROMSend D r3.2 data
  pure (setEEPROM_CS_PIN D r4.2 1)

/-- The bus after `n` passes of the body of the readiness loop. -/
def afterPolls {σ : Type} (D : SPIDevice σ) (k : EEPROMOpcodes) : Nat → Bus σ → Bus σ
  | 0, b => b
  | n + 1, b => afterPolls D k n (statusPoll D k b).2

/-- The wire trace of one status poll: chip select low, RDSR, the dummy byte,
chip select high. -/
def pollWire (k : EEPROMOpcodes) : List Wire :=
  [Wire.CS 0, Wire.transfer k.EEPROM_COMMAND_RDSR, Wire.transfer k.EEPROM_COMMAND_GET,
   Wire.CS 1]

/-! ### A model of the EEPROM chip -/

/-- Where the chip stands in an instruction. -/
inductive ChipPhase
  | deselected
  | opcode
  | status
  | readHigh
  | readLow (high : Nat)
  | readData (addr : Nat)
  | writeHigh
  | writeLow (high : Nat)
  | writeData (addr : Nat)
  | ignoring
  deriving DecidableEq

/-- An SPI EEPROM: a byte array, the number of status reads that will still
report busy, the write-enable latch, the phase of the current instruction, and
the number of status reads for which a write keeps the chip busy. -/
structure Chip where
  mem : Nat → Nat
  busy : Nat
  writeEnabled : Bool
  phase : ChipPhase
  writeCycle : Nat

/-- The status register: bit 0 is the busy flag, bit 1 the write-enable
latch. -/
def Chip.statusRegister (c : Chip) : Nat :=
  (if 0 < c.busy then 1 else 0) + (if c.writeEnabled then 2 else 0)

/-- Chip select low starts an instruction, chip select high ends it. -/
def Chip.chipSelect (c : Chip) (level : Nat) : Chip :=
  if level = 0 then { c with phase := ChipPhase.opcode }
  else { c with phase := ChipPhase.deselected }

/-- One byte exchanged with the chip.  A busy chip obeys RDSR only; WREN sets
the latch; READ answers the stored byte after a two-byte address; WRITE,
accepted only with the latch set, stores the data byte after a two-byte
address, clears the latch and keeps the chip busy for `writeCycle` status
reads. -/
def Chip.exchange (k : EEPROMOpcodes) (c : Chip) (byte : Nat) : Nat × Chip :=
  match c.phase with
  | ChipPhase.deselected => (0, c)
  | ChipPhase.opcode =>
    if byte = k.EEPROM_COMMAND_RDSR then (0, { c with phase := ChipPhase.status })
    else if 0 < c.busy then (0, { c with phase := ChipPhase.ignoring })
    else if byte = k.EEPROM_COMMAND_WREN then
      (0, { c with writeEnabled := true, phase := ChipPhase.ignoring })
    else if byte = k.EEPROM_COMMAND_READ then (0, { c with phase := ChipPhase.readHigh })
    else if byte = k.EEPROM_COMMAND_WRITE then
      (0, { c with phase := if c.writeEnabled then ChipPhase.writeHigh
                            else ChipPhase.ignoring })
    else (0, { c with phase := ChipPhase.ignoring })
  | ChipPhase.status => (c.statusRegister, { c with busy := c.busy - 1 })
  | ChipPhase.readHigh => (0, { c with phase := ChipPhase.readLow byte })
  | ChipPhase.readLow high => (0, { c with phase := ChipPhase.readData (high * 256 + byte) })
  | ChipPhase.readData addr => (c.mem addr, { c with phase := ChipPhase.readData (addr + 1) })
  | ChipPhase.writeHigh => (0, { c with phase := ChipPhase.writeLow byte })
  | ChipPhase.writeLow high => (0, { c with phase := ChipPhase.writeData (high * 256 + byte) })
  | ChipPhase.writeData addr =>
    (0, { c with mem := fun i => if i = addr then byte else c.mem i,
                 busy := c.writeCycle, writeEnabled := false,
                 phase := ChipPhase.ignoring })
  | ChipPhase.ignoring => (0, c)

/-- The chip model as the device of the bus. -/
def eepromChip (k : EEPROMOpcodes) : SPIDevice Chip :=
  { chipSelect := Chip.chipSelect, exchange := Chip.exchange k }

/-- A chip at rest holding zeros, busy for two status reads after a write. -/
def blankChip : Chip :=
  { mem := fun _ => 0, busy := 0, writeEnabled := false, phase := ChipPhase.deselected,
    writeCycle := 2 }

/-! ## Library lemmas -/

theorem strcmp_self (a : List Nat) : strcmp a a = 0 := by
  induction a with
  | nil => rfl
  | cons x xs ih => simp [strcmp, ih]

theorem strcmp_eq_zero_iff (a b : List Nat) : strcmp a b = 0 ↔ a = b := by
  constructor
  · intro h
    induction a generalizing b with
    | nil => cases b with
      | nil => rfl
      | cons y ys => simp [strcmp] at h
    | cons x xs ih => cases b with
      | nil => simp [strcmp] at h
      | cons y ys =>
        simp only [strcmp] at h
        split at h
        · simp at h
        · split at h
          · simp at h
          · have hxy : x = y := by omega
            rw [hxy, ih ys h]
  · intro h
    rw [h]; exact strcmp_self b

theorem window_zero (d : Nat → Nat) (s : Nat) : window d s 0 = [] := rfl

theorem window_length (d : Nat → Nat) (s n : Nat) : (window d s n).length = n := by
  simp [window]

theorem window_succ (d : Nat → Nat) (s n : Nat) :
    window d s (n + 1) = d (s % 256) :: window d ((s + 1) % 256) n := by
  simp only [window, List.range_succ_eq_map, List.map_cons, List.map_map, Nat.add_zero]
  congr 1
  apply List.map_congr_left
  intro j _
  simp only [Function.comp]
  congr 1
  omega

theorem window_add (d : Nat → Nat) (s a b : Nat) :
    window d s (a + b) = window d s a ++ window d ((s + a) % 256) b := by
  induction a generalizing s with
  | zero =>
    simp only [Nat.zero_add, window_zero, List.nil_append, Nat.add_zero]
    simp only [window]
    apply List.map_congr_left
    intro j _
    congr 1
    omega
  | succ a ih =>
    have h1 : a + 1 + b = (a + b) + 1 := by omega
    rw [h1, window_succ, window_succ, ih, List.cons_append]
    congr 3
    omega

theorem window_take (d : Nat → Nat) (s a n : Nat) (h : a ≤ n) :
    (window d s n).take a = window d s a := by
  obtain ⟨b, rfl⟩ := Nat.exists_eq_add_of_le h
  rw [window_add, List.take_left' (window_length d s a)]

theorem window_drop (d : Nat → Nat) (s a n : Nat) (h : a ≤ n) :
    (window d s n).drop a = window d ((s + a) % 256) (n - a) := by
  obtain ⟨b, rfl⟩ := Nat.exists_eq_add_of_le h
  rw [window_add, List.drop_left' (window_length d s a)]
  congr 1
  omega

theorem unread_length_le (q : CharQueue) : q.unread.length ≤ 255 := by
  simp only [CharQueue.unread, window_length]
  omega

/-! ## The echo loop -/

theorem echoLoop_spec (n : Nat) (cli : CLI_t) (out : List Event)
    (hl : cli.lastChar < 256) (hw : cli.rxQueue.writeCursor < 256)
    (hn : (cli.rxQueue.writeCursor + 256 - cli.lastChar) % 256 ≤ n) :
    echoLoop n cli out =
      .ok ({ cli with lastChar := cli.rxQueue.writeCursor },
           out ++ cli.pending.map Event.UARTSendChar) := by
  induction n generalizing cli out with
  | zero =>
    obtain ⟨q, l⟩ := cli
    simp only at hl hw hn
    have hEq : l = q.writeCursor := by omega
    subst hEq
    have h0 : (q.writeCursor + 256 - q.writeCursor) % 256 = 0 := by omega
    simp [echoLoop, CLI_t.pending, h0, window_zero]
  | succ n ih =>
    obtain ⟨q, l⟩ := cli
    simp only at hl hw hn
    by_cases hEq : l = q.writeCursor
    · subst hEq
      have h0 : (q.writeCursor + 256 - q.writeCursor) % 256 = 0 := by omega
      simp [echoLoop, CLI_t.pending, h0, window_zero]
    · have hstep : (if l ≥ 255 then 0 else l + 1) = (l + 1) % 256 := by
        split <;> omega
      have hd : (q.writeCursor + 256 - l) % 256
          = (q.writeCursor + 256 - (l + 1) % 256) % 256 + 1 := by omega
      have hrec := ih ⟨q, (l + 1) % 256⟩ (out ++ [Event.UARTSendChar (CharQueueGet q l)])
        (by simp only; omega) hw (by simp only; omega)
      simp only [echoLoop, ne_eq, hEq, not_false_eq_true, if_true, hstep]
      rw [hrec]
      simp only [CLI_t.pending, CharQueueGet]
      rw [hd, window_succ, Nat.mod_eq_of_lt hl]
      simp

/-! ## Frame extraction -/

theorem seekFrom_absent (needle : Nat) (l : List Nat) (cnt : Nat) (h : needle ∉ l) :
    seekFrom needle l cnt = 0 := by
  induction l generalizing cnt with
  | nil => rfl
  | cons b bs ih =>
    simp only [List.mem_cons, not_or] at h
    simp only [seekFrom]
    rw [if_neg (fun e => h.1 e.symm)]
    exact ih _ h.2

theorem seekFrom_found (needle : Nat) (pre post : List Nat) (cnt : Nat) (h : needle ∉ pre) :
    seekFrom needle (pre ++ needle :: post) cnt = cnt + pre.length := by
  induction pre generalizing cnt with
  | nil => simp [seekFrom]
  | cons b bs ih =>
    simp only [List.mem_cons, not_or] at h
    have hrec := ih (cnt + 1) h.2
    show seekFrom needle (b :: (bs ++ needle :: post)) cnt = cnt + (bs.length + 1)
    rw [seekFrom, if_neg (fun e => h.1 e.symm), hrec]
    omega

theorem readMessage_spec (n : Nat) (q : CharQueue) (msg : List Nat) (dc : Nat)
    (hr : q.readCursor < 256) (hdc : dc < 256) :
    readMessage n q msg dc =
      ({ q with readCursor := (q.readCursor + n) % 256 },
       msg ++ (window q.data q.readCursor n).map
         (fun c => if c ≠ CLI_MSG_END_CHAR then c else 0),
       (dc + (window q.data q.readCursor n).count CLI_MSG_DELIMETER) % 256) := by
  induction n generalizing q msg dc with
  | zero =>
    simp only [readMessage, window_zero, List.map_nil, List.append_nil, List.count_nil,
      Nat.add_zero, Nat.mod_eq_of_lt hr, Nat.mod_eq_of_lt hdc]
  | succ n ih =>
    obtain ⟨d, r, w⟩ := q
    simp only at hr
    simp only [readMessage, CharQueueNext]
    rw [ih _ _ _ (by simp only; omega) (by split <;> omega)]
    simp only [window_succ, Nat.mod_eq_of_lt hr, List.map_cons, List.append_assoc,
      List.singleton_append, List.count_cons]
    refine Prod.ext ?_ (Prod.ext ?_ ?_)
    · simp only [CharQueue.mk.injEq, true_and, and_true]
      omega
    · simp
    · simp only [beq_iff_eq]
      by_cases hc : d r = CLI_MSG_DELIMETER
      · simp only [hc, if_true]; omega
      · simp only [hc, if_false]; omega

/-! ## The tokenizer -/

theorem space_contains (b : Nat) : (str " ").contains b = (b == 32) := by
  have h : str " " = [32] := by decide
  rw [h]
  cases hb : b == 32 <;> simp [List.contains, List.elem, hb]

theorem maximalRuns_nil : maximalRuns [] = [] := by
  simp [maximalRuns, List.splitOn, List.splitOnP_nil]

theorem maximalRuns_cons_space (s : List Nat) : maximalRuns (32 :: s) = maximalRuns s := by
  simp [maximalRuns, List.splitOn, List.splitOnP_cons]

theorem maximalRuns_dropWhile (s : List Nat) :
    maximalRuns (s.dropWhile (fun b => b == 32)) = maximalRuns s := by
  induction s with
  | nil => rfl
  | cons c cs ih =>
    by_cases hc : c = 32
    · subst hc
      rw [List.dropWhile_cons_of_pos (by simp), ih, maximalRuns_cons_space]
    · rw [List.dropWhile_cons_of_neg (by simpa using hc)]

theorem maximalRuns_cons_token (c : Nat) (s : List Nat) (hc : c ≠ 32) :
    maximalRuns (c :: s) =
      (c :: s.takeWhile (fun b => b != 32)) ::
        maximalRuns ((s.dropWhile (fun b => b != 32)).drop 1) := by
  have hsplit : c :: s = (c :: s.takeWhile (fun b => b != 32)) ++ s.dropWhile (fun b => b != 32) := by
    simp
  have hfree : ∀ x ∈ c :: s.takeWhile (fun b => b != 32), ¬ ((fun b => b == 32) x = true) := by
    intro x hx
    rcases List.mem_cons.1 hx with rfl | hx
    · simpa using hc
    · have := List.mem_takeWhile_imp hx
      simpa using this
  cases hd : s.dropWhile (fun b => b != 32) with
  | nil =>
    rw [hd] at hsplit
    simp only [List.append_nil] at hsplit
    rw [← hsplit]
    have hfree2 : ∀ x ∈ c :: s, ¬ ((fun b => b == 32) x = true) := by
      rw [hsplit]; exact hfree
    show List.filter (fun t => !t.isEmpty) (List.splitOnP (fun b => b == 32) (c :: s)) =
      [c :: s] ++ List.filter (fun t => !t.isEmpty) (List.splitOnP (fun b => b == 32) [])
    rw [List.splitOnP_eq_single _ _ hfree2, List.splitOnP_nil]
    simp
  | cons d ds =>
    have hdsp : d = 32 := by
      have := List.head_dropWhile_not (fun b => b != 32) s (by rw [hd]; simp)
      simp only [hd, List.head_cons] at this
      simpa using this
    subst hdsp
    rw [hd] at hsplit
    conv_lhs => rw [hsplit]
    show List.filter (fun t => !t.isEmpty) (List.splitOnP (fun b => b == 32)
        ((c :: s.takeWhile (fun b => b != 32)) ++ 32 :: ds)) =
      (c :: s.takeWhile (fun b => b != 32)) ::
        List.filter (fun t => !t.isEmpty) (List.splitOnP (fun b => b == 32) ds)
    rw [List.splitOnP_first _ _ hfree 32 (by simp)]
    simp

theorem strtok_none (s : List Nat) (h : strtok s (str " ") = none) : maximalRuns s = [] := by
  unfold strtok at h
  simp only [space_contains] at h
  rw [← maximalRuns_dropWhile]
  cases hd : s.dropWhile (fun b => b == 32) with
  | nil => exact maximalRuns_nil
  | cons c cs => rw [hd] at h; simp at h

theorem strtok_some (s tok rest : List Nat) (h : strtok s (str " ") = some (tok, rest)) :
    maximalRuns s = tok :: maximalRuns rest ∧ rest.length < s.length := by
  unfold strtok at h
  simp only [space_contains] at h
  rw [← maximalRuns_dropWhile]
  have hlen : (s.dropWhile (fun b => b == 32)).length ≤ s.length :=
    (List.dropWhile_sublist _).length_le
  cases hd : s.dropWhile (fun b => b == 32) with
  | nil => rw [hd] at h; simp at h
  | cons c cs =>
    rw [hd] at h hlen
    have hc : c ≠ 32 := by
      have := List.head_dropWhile_not (fun b => b == 32) s (by rw [hd]; simp)
      simp only [hd, List.head_cons] at this
      simpa using this
    simp only [Option.some.injEq, Prod.mk.injEq] at h
    obtain ⟨h1, h2⟩ := h
    have hnb : (fun b : Nat => !(b == 32)) = (fun b => b != 32) := rfl
    rw [hnb] at h1 h2
    have h1' : List.takeWhile (fun b => b != 32) (c :: cs)
        = c :: List.takeWhile (fun b => b != 32) cs := by simp [hc]
    have h2' : List.dropWhile (fun b => b != 32) (c :: cs)
        = List.dropWhile (fun b => b != 32) cs := by simp [hc]
    rw [h1'] at h1
    rw [h2'] at h2
    constructor
    · rw [maximalRuns_cons_token c cs hc, h1, h2]
    · rw [← h2]
      have : (cs.dropWhile (fun b => b != 32)).length ≤ cs.length :=
        (List.dropWhile_sublist _).length_le
      simp only [List.length_drop, List.length_cons] at *
      omega

theorem splitOnP_length (p : Nat → Bool) (s : List Nat) :
    (s.splitOnP p).length = 1 + s.countP p := by
  induction s with
  | nil => simp [List.splitOnP_nil]
  | cons c cs ih =>
    rw [List.splitOnP_cons]
    by_cases hp : p c = true
    · simp [hp, ih, List.countP_cons_of_pos]; omega
    · simp [hp, ih, List.countP_cons_of_neg]

theorem maximalRuns_length_le (s : List Nat) : (maximalRuns s).length ≤ 1 + s.count 32 := by
  unfold maximalRuns
  calc (List.filter (fun t => !t.isEmpty) (s.splitOn 32)).length
      ≤ (s.splitOn 32).length := List.length_filter_le _ _
    _ = 1 + s.countP (fun b => b == 32) := splitOnP_length _ s
    _ = 1 + s.count 32 := by rw [List.count]

theorem maximalRuns_token_aux (n : Nat) :
    ∀ s : List Nat, s.length ≤ n → ∀ t ∈ maximalRuns s, t ≠ [] ∧ 32 ∉ t := by
  induction n with
  | zero =>
    intro s hs t ht
    have : s = [] := List.length_eq_zero.1 (by omega)
    subst this
    simp [maximalRuns_nil] at ht
  | succ n ih =>
    intro s hs t ht
    cases s with
    | nil => simp [maximalRuns_nil] at ht
    | cons c cs =>
      simp only [List.length_cons] at hs
      by_cases hc : c = 32
      · subst hc
        rw [maximalRuns_cons_space] at ht
        exact ih cs (by omega) t ht
      · rw [maximalRuns_cons_token c cs hc] at ht
        rcases List.mem_cons.1 ht with rfl | ht
        · refine ⟨by simp, ?_⟩
          intro hmem
          rcases List.mem_cons.1 hmem with h | h
          · exact hc h.symm
          · have := List.mem_takeWhile_imp h
            simp at this
        · refine ih _ ?_ t ht
          have : (cs.dropWhile (fun b => b != 32)).length ≤ cs.length :=
            (List.dropWhile_sublist _).length_le
          simp only [List.length_drop]
          omega

theorem maximalRuns_token (s : List Nat) : ∀ t ∈ maximalRuns s, t ≠ [] ∧ 32 ∉ t :=
  maximalRuns_token_aux s.length s (Nat.le_refl _)

theorem set_take_succ {α : Type} (buf : List α) (i : Nat) (x : α) (h : i < buf.length) :
    (buf.set i x).take (i + 1) = buf.take i ++ [x] := by
  rw [List.set_eq_take_append_cons_drop, if_pos h]
  have hl : (buf.take i).length = i := by simp; omega
  rw [List.take_append_eq_append_take, hl]
  simp [List.take_of_length_le (Nat.le_of_eq hl)]

theorem set_drop_succ {α : Type} (buf : List α) (i m : Nat) (x : α) :
    (buf.set i x).drop (i + 1 + m) = buf.drop (i + 1 + m) := by
  rw [List.drop_set_of_lt]
  omega

theorem fillMsgBuf_spec (n : Nat) :
    ∀ (s : List Nat) (i : Nat) (buf : List (Option (List Nat))),
      s.length < n → i + (maximalRuns s).length ≤ buf.length → buf.length < 256 →
      fillMsgBuf n (strtok s (str " ")) i buf =
        .ok (buf.take i ++ (maximalRuns s).map some ++
              buf.drop (i + (maximalRuns s).length)) := by
  induction n with
  | zero => intro s i buf hs; omega
  | succ n ih =>
    intro s i buf hs hfit hbuf
    cases hst : strtok s (str " ") with
    | none =>
      rw [strtok_none s hst]
      simp [fillMsgBuf]
    | some tr =>
      obtain ⟨tok, rest⟩ := tr
      obtain ⟨hruns, hlen⟩ := strtok_some s tok rest hst
      rw [hruns] at hfit ⊢
      simp only [List.length_cons] at hfit
      have hi : i < buf.length := by omega
      have hi1 : (i + 1) % 256 = i + 1 := Nat.mod_eq_of_lt (by omega)
      simp only [fillMsgBuf, hi, if_true, hi1]
      rw [ih rest (i + 1) (buf.set i (some tok)) (by omega)
        (by rw [List.length_set]; omega) (by rw [List.length_set]; exact hbuf)]
      rw [set_take_succ buf i (some tok) hi, set_drop_succ]
      simp only [List.map_cons, List.length_cons, List.append_assoc, List.singleton_append]
      congr 4
      omega

theorem cstr_no_nul (buf : List Nat) : 0 ∉ cstr buf := by
  intro h
  have := List.mem_takeWhile_imp h
  simp at this

theorem cstr_append_nul (s : List Nat) : cstr (s ++ [0]) = cstr s := by
  induction s with
  | nil => simp [cstr]
  | cons c cs ih =>
    unfold cstr at ih ⊢
    by_cases hc : c = 0
    · simp [hc]
    · simp [hc, ih]

theorem cstr_cstr (s : List Nat) : cstr (cstr s) = cstr s := by
  induction s with
  | nil => simp [cstr]
  | cons c cs ih =>
    unfold cstr at ih ⊢
    by_cases hc : c = 0
    · simp [hc]
    · simp [hc, ih]

theorem cstr_of_no_nul (s : List Nat) (h : 0 ∉ s) : cstr s = s := by
  unfold cstr
  rw [List.takeWhile_eq_self_iff]
  intro x hx
  have : x ≠ 0 := fun e => h (e ▸ hx)
  simpa using this

theorem cstr_length_le (s : List Nat) : (cstr s).length ≤ s.length :=
  (List.takeWhile_sublist _).length_le

theorem cstr_count_le (s : List Nat) : (cstr s).count 32 ≤ s.count 32 :=
  (List.takeWhile_sublist _).count_le 32

/-- The slot array built by lines 72-80 for the buffer `text ++ [0]`. -/
theorem tokenize_spec (text : List Nat) (dc : Nat)
    (hdc : 1 + text.count 32 ≤ dc) (hdc2 : dc < 256) :
    tokenize (text ++ [0]) dc =
      .ok ((maximalRuns (cstr text)).map some ++
            List.replicate (dc - (maximalRuns (cstr text)).length) none) := by
  have hle : (maximalRuns (cstr text)).length ≤ dc :=
    Nat.le_trans (maximalRuns_length_le _)
      (Nat.le_trans (Nat.add_le_add_left (cstr_count_le text) 1) hdc)
  unfold tokenize strcpy
  simp only [cstr_append_nul, cstr_cstr]
  rw [fillMsgBuf_spec _ (cstr text) 0 (List.replicate dc none) (by simp)
    (by simpa using hle) (by simpa using hdc2)]
  simp

/-! ## One call of `CLIProcess` -/

theorem map_msgByte_frame (text : List Nat) (ht : 13 ∉ text) :
    (text ++ [13]).map (fun c => if c ≠ CLI_MSG_END_CHAR then c else 0) = text ++ [0] := by
  rw [List.map_append]
  congr 1
  · conv_rhs => rw [← List.map_id text]
    apply List.map_congr_left
    intro c hc
    have : c ≠ 13 := fun e => ht (e ▸ hc)
    simp [CLI_MSG_END_CHAR, this]

theorem unread_frame_window (q : CharQueue) (text rest : List Nat)
    (hq : q.unread = text ++ 13 :: rest) :
    window q.data q.readCursor (text.length + 1) = text ++ [13] := by
  have hlen : text.length + 1 ≤ (q.writeCursor + 256 - q.readCursor) % 256 := by
    have := congrArg List.length hq
    simp only [CharQueue.unread, window_length, List.length_append, List.length_cons] at this
    omega
  rw [← window_take q.data q.readCursor _ _ hlen]
  have hq' : window q.data q.readCursor ((q.writeCursor + 256 - q.readCursor) % 256)
      = (text ++ [13]) ++ rest := by
    rw [← CharQueue.unread, hq]; simp
  rw [hq', List.take_left' (by simp)]

theorem unread_consumed (cli : CLI_t) (n : Nat) (hc : cli.cursorsOk)
    (hn : n ≤ cli.rxQueue.unread.length) :
    (consumed cli n).rxQueue.unread = cli.rxQueue.unread.drop n := by
  obtain ⟨_, hr, hw⟩ := hc
  simp only [CharQueue.unread, window_length] at hn
  simp only [consumed, CharQueue.unread]
  rw [window_drop _ _ _ _ hn]
  congr 1
  omega

theorem CLIProcess_frame (k : Consts) (cli : CLI_t) (cfg : Config) (text rest : List Nat)
    (hc : cli.cursorsOk) (hq : cli.rxQueue.unread = text ++ 13 :: rest) (ht : 13 ∉ text) :
    CLIProcess k cli cfg =
      (dispatch (slotsOf text) k cfg).map
        (fun p => ⟨consumed cli (text.length + 1), p.1, preamble cli ++ p.2⟩) := by
  obtain ⟨hl, hr, hw⟩ := hc
  have hlen : text.length + 1 ≤ 255 := by
    have h1 := unread_length_le cli.rxQueue
    rw [hq] at h1
    simp only [List.length_append, List.length_cons] at h1
    omega
  have hcount : text.count 32 ≤ text.length := List.count_le_length 32 text
  have hecho := echoLoop_spec 256 cli [] hl hw (by omega)
  have hseek : CharQueueSeek cli.rxQueue CLI_MSG_END_CHAR % 256 = text.length + 1 := by
    unfold CharQueueSeek CLI_MSG_END_CHAR
    rw [hq, seekFrom_found 13 text rest 1 ht]
    omega
  have hread := readMessage_spec (text.length + 1) cli.rxQueue [] 1 hr (by omega)
  rw [unread_frame_window cli.rxQueue text rest hq, map_msgByte_frame text ht] at hread
  have hcnt : (1 + List.count CLI_MSG_DELIMETER (text ++ [13])) % 256 = 1 + text.count 32 := by
    simp only [CLI_MSG_DELIMETER, List.count_append]
    have : List.count 32 [13] = 0 := by decide
    omega
  rw [hcnt, List.nil_append] at hread
  have htok := tokenize_spec text (1 + text.count 32) (Nat.le_refl _) (by omega)
  unfold CLIProcess
  simp only [hecho, bind, Except.bind, hseek, List.nil_append, Nat.succ_pos, if_true, hread, htok,
    gt_iff_lt, Nat.zero_lt_succ]
  cases hd : dispatch (slotsOf text) k cfg with
  | error e =>
    simp only [slotsOf] at hd
    simp [hd, Except.map]
  | ok p =>
    simp only [slotsOf] at hd
    simp [hd, Except.map, consumed, preamble, pure, Except.pure]

theorem CLIProcess_idle (k : Consts) (cli : CLI_t) (cfg : Config)
    (hc : cli.cursorsOk) (hq : 13 ∉ cli.rxQueue.unread) :
    CLIProcess k cli cfg =
      .ok ⟨{ cli with lastChar := cli.rxQueue.writeCursor }, cfg,
           cli.pending.map Event.UARTSendChar⟩ := by
  obtain ⟨hl, hr, hw⟩ := hc
  have hecho := echoLoop_spec 256 cli [] hl hw (by omega)
  have hseek : CharQueueSeek cli.rxQueue CLI_MSG_END_CHAR % 256 = 0 := by
    unfold CharQueueSeek CLI_MSG_END_CHAR
    rw [seekFrom_absent 13 _ 1 hq]
  unfold CLIProcess
  simp [hecho, bind, Except.bind, hseek, pure, Except.pure]

theorem slot_written (toks : List (List Nat)) (m j : Nat) (t : List Nat)
    (h : toks.get? j = some t) :
    slot (toks.map some ++ List.replicate m none) j = .ok t := by
  have hj : j < toks.length := by
    rcases Nat.lt_or_ge j toks.length with h' | h'
    · exact h'
    · rw [List.get?_eq_none.2 h'] at h; cases h
  unfold slot
  rw [List.get?_eq_getElem?, List.getElem?_append_left (by simpa using hj)]
  rw [List.get?_eq_getElem?] at h
  simp [h]

theorem slot_unwritten (toks : List (List Nat)) (m : Nat) :
    slot (toks.map some ++ List.replicate m none) toks.length =
      .error (if 0 < m then Fault.uninitialised toks.length
              else Fault.outOfBounds toks.length) := by
  unfold slot
  rw [List.get?_eq_getElem?, List.getElem?_append_right (by simp)]
  cases m with
  | zero => simp
  | succ m => simp [List.replicate_succ]

theorem dispatch_unknown (K : Consts) (cfg : Config) (t0 : List Nat)
    (rest : List (Option (List Nat)))
    (hkw : t0 ∉ [str "BOOTLOADER", str "BTRESET", str "BTRESETPDL", str "GET", str "REBOOT",
      str "SET", str "HELP"]) (hne : t0 ≠ []) :
    dispatch (some t0 :: rest) K cfg =
      .ok (cfg, [Event.LogError "Command Unknown. Try HELP"]) := by
  simp only [List.mem_cons, List.mem_singleton, not_or, List.not_mem_nil, not_false_eq_true,
    and_true] at hkw
  obtain ⟨h1, h2, h3, h4, h5, h6, h7⟩ := hkw
  have hlen : strlen t0 ≠ 0 := by
    unfold strlen
    intro h
    exact hne (List.length_eq_zero.1 h)
  simp only [dispatch, slot, List.get?, bind, Except.bind, strcmp_eq_zero_iff, h1, h2, h3, h4, h5,
    h6, h7, hlen, if_false, or_self]
  rfl

theorem extract_frame (q : CharQueue) (text rest : List Nat) (hr : q.readCursor < 256)
    (hq : q.unread = text ++ 13 :: rest) (ht : 13 ∉ text) :
    CharQueueSeek q CLI_MSG_END_CHAR % 256 = text.length + 1 ∧
    readMessage (text.length + 1) q [] 1 =
      ({ q with readCursor := (q.readCursor + (text.length + 1)) % 256 },
       text ++ [0], 1 + text.count 32) := by
  have hlen : text.length + 1 ≤ 255 := by
    have h1 := unread_length_le q
    rw [hq] at h1
    simp only [List.length_append, List.length_cons] at h1
    omega
  have hcount : text.count 32 ≤ text.length := List.count_le_length 32 text
  constructor
  · unfold CharQueueSeek CLI_MSG_END_CHAR
    rw [hq, seekFrom_found 13 text rest 1 ht]
    omega
  · have hread := readMessage_spec (text.length + 1) q [] 1 hr (by omega)
    rw [unread_frame_window q text rest hq, map_msgByte_frame text ht] at hread
    have hcnt : (1 + List.count CLI_MSG_DELIMETER (text ++ [13])) % 256
        = 1 + text.count 32 := by
      simp only [CLI_MSG_DELIMETER, List.count_append]
      have : List.count 32 [13] = 0 := by decide
      omega
    rw [hcnt, List.nil_append] at hread
    exact hread

theorem split_at_terminator (l : List Nat) (k : Nat) (hone : l.count 13 = 1)
    (hk : l.get? k = some 13) :
    l = l.take k ++ 13 :: l.drop (k + 1) ∧ 13 ∉ l.take k ∧ 13 ∉ l.drop (k + 1) ∧
      (l.take k).length = k := by
  have hlt : k < l.length := by
    rcases Nat.lt_or_ge k l.length with h | h
    · exact h
    · rw [List.get?_eq_none.2 h] at hk; cases hk
  have hget : l[k] = 13 := by
    rw [List.get?_eq_getElem?, List.getElem?_eq_getElem hlt] at hk
    exact Option.some.inj hk
  have hsplit : l = l.take k ++ 13 :: l.drop (k + 1) := by
    conv_lhs => rw [← List.take_append_drop k l, List.drop_eq_getElem_cons hlt, hget]
  have hcnt : (l.take k).count 13 + (1 + (l.drop (k + 1)).count 13) = 1 := by
    conv_rhs => rw [← hone, hsplit]
    simp only [List.count_append, List.count_cons_self]
    omega
  refine ⟨hsplit, ?_, ?_, ?_⟩
  · rw [← List.count_eq_zero]; omega
  · rw [← List.count_eq_zero]; omega
  · simp only [List.length_take]; omega

theorem CLIProcess_ok_of_dispatch (k : Consts) (cli : CLI_t) (cfg cfg1 : Config)
    (text rest : List Nat) (evs : List Event)
    (hc : cli.cursorsOk) (hq : cli.rxQueue.unread = text ++ 13 :: rest) (ht : 13 ∉ text)
    (hd : dispatch (slotsOf text) k cfg = .ok (cfg1, evs)) :
    CLIProcess k cli cfg = .ok ⟨consumed cli (text.length + 1), cfg1, preamble cli ++ evs⟩ := by
  rw [CLIProcess_frame k cli cfg text rest hc hq ht, hd]
  rfl

theorem CLIProcess_error_of_dispatch (k : Consts) (cli : CLI_t) (cfg : Config)
    (text rest : List Nat) (f : Fault)
    (hc : cli.cursorsOk) (hq : cli.rxQueue.unread = text ++ 13 :: rest) (ht : 13 ∉ text)
    (hd : dispatch (slotsOf text) k cfg = .error f) :
    CLIProcess k cli cfg = .error f := by
  rw [CLIProcess_frame k cli cfg text rest hc hq ht, hd]
  rfl

theorem slotsOf_cons (text t0 : List Nat) (ts : List (List Nat))
    (h : maximalRuns (cstr text) = t0 :: ts) :
    slotsOf text = some t0 ::
      (ts.map some ++ List.replicate (1 + text.count 32 - (ts.length + 1)) none) := by
  simp [slotsOf, h]

theorem dispatch_get_ui (K : Consts) (cfg : Config) (rest : List (Option (List Nat))) :
    dispatch (some (str "GET") :: some (str "UI") :: rest) K cfg =
      .ok (cfg, [Event.LogRaw
        (if cfg.uiMode % 256 = K.IBus_UI_CD53 then "UI Mode: CD53\r\n"
         else if cfg.uiMode % 256 = K.IBus_UI_BMBT then "UI Mode: BMBT\r\n"
         else "UI Mode: Not set or Invalid\r\n")]) := by
  have e : dispatch (some (str "GET") :: some (str "UI") :: rest) K cfg =
      (if ConfigGetUIMode cfg % 256 = K.IBus_UI_CD53 then
        pure (cfg, [Event.LogRaw "UI Mode: CD53\r\n"])
      else if ConfigGetUIMode cfg % 256 = K.IBus_UI_BMBT then
        pure (cfg, [Event.LogRaw "UI Mode: BMBT\r\n"])
      else
        pure (cfg, [Event.LogRaw "UI Mode: Not set or Invalid\r\n"])) := rfl
  rw [e]
  unfold ConfigGetUIMode
  split
  · rfl
  · split <;> rfl

theorem dispatch_set_log_invalid (K : Consts) (cfg : Config) (s v : List Nat)
    (rest : List (Option (List Nat)))
    (hbad : s ∉ [str "BT", str "IBUS", str "SYS", str "UI"] ∨ v ∉ [str "0", str "1"]) :
    dispatch (some (str "SET") :: some (str "LOG") :: some s :: some v :: rest) K cfg =
      .ok (cfg, [Event.LogRaw "Invalid Parameters for SET LOG\r\n"]) := by
  have e : dispatch (some (str "SET") :: some (str "LOG") :: some s :: some v :: rest) K cfg =
      dispatchSetLog (some (str "SET") :: some (str "LOG") :: some s :: some v :: rest) K cfg :=
    rfl
  rw [e]
  simp only [dispatchSetLog, slot, List.get?, bind, Except.bind, strcmp_eq_zero_iff]
  rcases hbad with hs | hv
  · simp only [List.mem_cons, List.mem_singleton, not_or, List.not_mem_nil, not_false_eq_true,
      and_true] at hs
    obtain ⟨h1, h2, h3, h4⟩ := hs
    simp only [h1, h2, h3, h4, if_false, ne_eq, not_true_eq_false, false_and]
    rfl
  · simp only [List.mem_cons, List.mem_singleton, not_or, List.not_mem_nil, not_false_eq_true,
      and_true] at hv
    obtain ⟨h1, h2⟩ := hv
    simp only [h1, h2, if_false, ne_eq, not_true_eq_false, and_false]
    rfl

/-! ## Frames written with single spaces -/

theorem maximalRuns_word (w : List Nat) (hw : w ≠ []) (h32 : 32 ∉ w) : maximalRuns w = [w] := by
  have hfree : ∀ x ∈ w, ¬ ((fun b => b == 32) x = true) := by
    intro x hx
    have : x ≠ 32 := fun e => h32 (e ▸ hx)
    simpa using this
  show List.filter (fun t => !t.isEmpty) (List.splitOnP (fun b => b == 32) w) = [w]
  rw [List.splitOnP_eq_single _ _ hfree]
  cases w with
  | nil => exact absurd rfl hw
  | cons c cs => rfl

theorem maximalRuns_word_space (w rest : List Nat) (hw : w ≠ []) (h32 : 32 ∉ w) :
    maximalRuns (w ++ 32 :: rest) = w :: maximalRuns rest := by
  have hfree : ∀ x ∈ w, ¬ ((fun b => b == 32) x = true) := by
    intro x hx
    have : x ≠ 32 := fun e => h32 (e ▸ hx)
    simpa using this
  show List.filter (fun t => !t.isEmpty) (List.splitOnP (fun b => b == 32) (w ++ 32 :: rest)) =
    w :: List.filter (fun t => !t.isEmpty) (List.splitOnP (fun b => b == 32) rest)
  rw [List.splitOnP_first _ _ hfree 32 (by simp)]
  cases w with
  | nil => exact absurd rfl hw
  | cons c cs => rfl

/-- The frame "SET LOG s v", written with single spaces, has the four tokens
SET, LOG, s, v whenever s and v are non-empty and hold no space and no NUL. -/
theorem maximalRuns_set_log_frame (s v : List Nat)
    (hs : s ≠ [] ∧ 32 ∉ s ∧ 0 ∉ s) (hv : v ≠ [] ∧ 32 ∉ v ∧ 0 ∉ v) :
    maximalRuns (cstr (str "SET LOG " ++ s ++ 32 :: v)) = [str "SET", str "LOG", s, v] := by
  have h0 : 0 ∉ str "SET LOG " ++ s ++ 32 :: v := by
    intro h
    rcases List.mem_append.1 h with h | h
    · rcases List.mem_append.1 h with h | h
      · revert h; decide
      · exact hs.2.2 h
    · rcases List.mem_cons.1 h with h | h
      · cases h
      · exact hv.2.2 h
  have hshape : str "SET LOG " ++ s ++ 32 :: v =
      str "SET" ++ 32 :: (str "LOG" ++ 32 :: (s ++ 32 :: v)) := by
    have : str "SET LOG " = str "SET" ++ 32 :: (str "LOG" ++ [32]) := by decide
    rw [this]
    simp
  rw [cstr_of_no_nul _ h0, hshape,
    maximalRuns_word_space _ _ (by decide) (by decide),
    maximalRuns_word_space _ _ (by decide) (by decide),
    maximalRuns_word_space s v hs.1 hs.2.1, maximalRuns_word v hv.1 hv.2.1]

/-! ## Polling without a terminator -/

/-- C5: when the unread bytes hold no terminator 0x0D, a call of `CLIProcess`
returns; the queue (cells and both cursors) and the configuration are
unchanged, the only calls made are the echo of the bytes not yet relayed (no
newline of line 52, no dispatcher output, no device action), and only
`lastChar` moves, to the write cursor.  A further call on the result makes no
call at all and changes nothing. -/
theorem poll_without_terminator (K : Consts) (cli : CLI_t) (cfg : Config)
    (hc : cli.cursorsOk) (hq : CLI_MSG_END_CHAR ∉ cli.rxQueue.unread) :
    ∃ r : Result,
      CLIProcess K cli cfg = .ok r ∧
      r.cli.rxQueue = cli.rxQueue ∧
      r.cli.lastChar = cli.rxQueue.writeCursor ∧
      r.config = cfg ∧
      r.events = cli.pending.map Event.UARTSendChar ∧
      (cli.lastChar = cli.rxQueue.writeCursor → r.events = []) ∧
      CLIProcess K r.cli r.config = .ok ⟨r.cli, r.config, []⟩ := by
  refine ⟨_, CLIProcess_idle K cli cfg hc hq, rfl, rfl, rfl, rfl, ?_, ?_⟩
  · intro h
    have h0 : (cli.rxQueue.writeCursor + 256 - cli.rxQueue.writeCursor) % 256 = 0 := by omega
    simp [CLI_t.pending, h, h0, window_zero]
  · have hc2 : CLI_t.cursorsOk { cli with lastChar := cli.rxQueue.writeCursor } :=
      ⟨hc.2.2, hc.2.1, hc.2.2⟩
    rw [CLIProcess_idle K _ cfg hc2 hq]
    have h0 : (cli.rxQueue.writeCursor + 256 - cli.rxQueue.writeCursor) % 256 = 0 := by omega
    simp [CLI_t.pending, h0, window_zero]

theorem poll_without_terminator_witness :
    (CLIInit (queueOf (str "GET U"))).cursorsOk ∧
    CLI_MSG_END_CHAR ∉ (CLIInit (queueOf (str "GET U"))).rxQueue.unread ∧
    ∃ r : Result,
      CLIProcess sampleConsts (CLIInit (queueOf (str "GET U"))) emptyConfig = .ok r ∧
      r.cli.rxQueue = (CLIInit (queueOf (str "GET U"))).rxQueue ∧
      r.events = (str "GET U").map Event.UARTSendChar :=
  ⟨by decide, by decide,
    match poll_without_terminator sampleConsts (CLIInit (queueOf (str "GET U"))) emptyConfig
      (by decide) (by decide) with
    | ⟨r, h1, h2, _, _, h5, _⟩ => ⟨r, h1, h2, h5.trans (by decide)⟩⟩

/-! ## SET LOG -/

/-- C6: for every frame whose tokens are `SET`, `LOG`, `s`, `v` in which `s` is
not one of BT, IBUS, SYS, UI or `v` is not one of 0, 1, `CLIProcess` makes no
`ConfigSetLog` call, leaves the configuration unchanged and emits, after the
echo and the newline, exactly the one line
"Invalid Parameters for SET LOG\r\n", the same in every such case. -/
theorem set_log_rejected (K : Consts) (cli : CLI_t) (cfg : Config)
    (text rest s v : List Nat) (more : List (List Nat))
    (hc : cli.cursorsOk)
    (hq : cli.rxQueue.unread = text ++ CLI_MSG_END_CHAR :: rest)
    (ht : CLI_MSG_END_CHAR ∉ text)
    (htoks : maximalRuns (cstr text) = str "SET" :: str "LOG" :: s :: v :: more)
    (hbad : s ∉ [str "BT", str "IBUS", str "SYS", str "UI"] ∨ v ∉ [str "0", str "1"]) :
    CLIProcess K cli cfg =
      .ok ⟨consumed cli (text.length + 1), cfg,
           preamble cli ++ [Event.LogRaw "Invalid Parameters for SET LOG\r\n"]⟩ := by
  apply CLIProcess_ok_of_dispatch K cli cfg cfg text rest _ hc hq ht
  have hs : slotsOf text = some (str "SET") :: some (str "LOG") :: some s :: some v ::
      (more.map some ++ List.replicate (1 + text.count 32 - (more.length + 4)) none) := by
    simp [slotsOf, htoks]
  rw [hs]
  exact dispatch_set_log_invalid K cfg s v _ hbad

theorem set_log_rejected_witness :
    CLIProcess sampleConsts (cliOf (str "SET LOG XX 1\r")) emptyConfig =
      .ok ⟨consumed (cliOf (str "SET LOG XX 1\r")) 13, emptyConfig,
           preamble (cliOf (str "SET LOG XX 1\r")) ++
             [Event.LogRaw "Invalid Parameters for SET LOG\r\n"]⟩ ∧
    CLIProcess sampleConsts (cliOf (str "SET LOG BT 9\r")) emptyConfig =
      .ok ⟨consumed (cliOf (str "SET LOG BT 9\r")) 13, emptyConfig,
           preamble (cliOf (str "SET LOG BT 9\r")) ++
             [Event.LogRaw "Invalid Parameters for SET LOG\r\n"]⟩ :=
  ⟨set_log_rejected sampleConsts (cliOf (str "SET LOG XX 1\r")) emptyConfig
      (str "SET LOG XX 1") [] (str "XX") (str "1") [] (by decide) (by decide) (by decide)
      (by decide) (by decide),
   set_log_rejected sampleConsts (cliOf (str "SET LOG BT 9\r")) emptyConfig
      (str "SET LOG BT 9") [] (str "BT") (str "9") [] (by decide) (by decide) (by decide)
      (by decide) (by decide)⟩

/-! ## Tokenizer -/

/-- C7: for every frame found in the queue (text followed by the terminator),
the copy loop hands the buffer `text ++ [0]` and `delimCount = 1 + spaces` to
the tokenizer, and the `strtok` loop writes into `msgBuf`, in order, exactly
the maximal non-empty runs of non-space characters of the frame text (its C
string, which is the text itself when it holds no 0x00), leaving the remaining
slots unwritten; no token is empty and none contains a space.  "SET LOG BT 1"
gives the four tokens SET, LOG, BT, 1 and "SET  UI 1" gives SET, UI, 1 with no
empty token in between. -/
theorem strtok_loop_matches_maximalRuns (cli : CLI_t) (text rest : List Nat)
    (hc : cli.cursorsOk)
    (hq : cli.rxQueue.unread = text ++ CLI_MSG_END_CHAR :: rest)
    (ht : CLI_MSG_END_CHAR ∉ text) :
    readMessage (CharQueueSeek cli.rxQueue CLI_MSG_END_CHAR % 256) cli.rxQueue [] 1 =
      ((consumed cli (text.length + 1)).rxQueue, text ++ [0], 1 + text.count 32) ∧
    tokenize (text ++ [0]) (1 + text.count 32) =
      .ok ((maximalRuns (cstr (text ++ [0]))).map some ++
        List.replicate (1 + text.count 32 - (maximalRuns (cstr (text ++ [0]))).length) none) ∧
    (0 ∉ text → cstr (text ++ [0]) = text) ∧
    (∀ t ∈ maximalRuns (cstr (text ++ [0])), t ≠ [] ∧ 32 ∉ t) ∧
    tokenize (str "SET LOG BT 1" ++ [0]) 4 =
      .ok [some (str "SET"), some (str "LOG"), some (str "BT"), some (str "1")] ∧
    tokenize (str "SET  UI 1" ++ [0]) 4 =
      .ok [some (str "SET"), some (str "UI"), some (str "1"), none] := by
  obtain ⟨hseek, hread⟩ := extract_frame cli.rxQueue text rest hc.2.1 hq ht
  have hlen : text.length + 1 ≤ 255 := by
    have h1 := unread_length_le cli.rxQueue
    rw [hq] at h1
    simp only [List.length_append, List.length_cons] at h1
    omega
  have hcount : text.count 32 ≤ text.length := List.count_le_length 32 text
  refine ⟨?_, ?_, ?_, ?_, by rfl, by rfl⟩
  · rw [hseek, hread]; rfl
  · rw [cstr_append_nul]
    exact tokenize_spec text (1 + text.count 32) (Nat.le_refl _) (by omega)
  · intro h0
    rw [cstr_append_nul, cstr_of_no_nul text h0]
  · exact maximalRuns_token _

theorem strtok_loop_matches_maximalRuns_witness :
    tokenize (str "GET UI" ++ [0]) (1 + (str "GET UI").count 32) =
      .ok ((maximalRuns (cstr (str "GET UI" ++ [0]))).map some ++
        List.replicate
          (1 + (str "GET UI").count 32 - (maximalRuns (cstr (str "GET UI" ++ [0]))).length)
          none) ∧
    maximalRuns (cstr (str "GET UI" ++ [0])) = [str "GET", str "UI"] :=
  ⟨(strtok_loop_matches_maximalRuns (cliOf (str "GET UI\r")) (str "GET UI") []
      (by decide) (by decide) (by decide)).2.1, by decide⟩

/-! ## UI mode -/

/-- C8: with `ConfigGetUIMode` returning the value last stored by
`ConfigSetUIMode` and the two mode macros distinct bytes, processing the frame
"SET UI 1" and then the frame "GET UI" makes the GET emit "UI Mode: CD53\r\n",
and processing "SET UI 2" and then "GET UI" makes it emit "UI Mode: BMBT\r\n",
whatever the configuration was before the SET. -/
theorem ui_mode_round_trip (K : Consts) (cfg : Config) (set1 set2 get : CLI_t)
    (rest1 rest2 rest : List Nat) (hK : K.uiModesOk)
    (h1 : set1.cursorsOk) (h2 : set2.cursorsOk) (hg : get.cursorsOk)
    (hq1 : set1.rxQueue.unread = str "SET UI 1" ++ CLI_MSG_END_CHAR :: rest1)
    (hq2 : set2.rxQueue.unread = str "SET UI 2" ++ CLI_MSG_END_CHAR :: rest2)
    (hqg : get.rxQueue.unread = str "GET UI" ++ CLI_MSG_END_CHAR :: rest) :
    (∃ r1 r2 : Result,
      CLIProcess K set1 cfg = .ok r1 ∧ CLIProcess K get r1.config = .ok r2 ∧
      r2.events = preamble get ++ [Event.LogRaw "UI Mode: CD53\r\n"]) ∧
    (∃ r1 r2 : Result,
      CLIProcess K set2 cfg = .ok r1 ∧ CLIProcess K get r1.config = .ok r2 ∧
      r2.events = preamble get ++ [Event.LogRaw "UI Mode: BMBT\r\n"]) := by
  obtain ⟨hcd, hbm, hne⟩ := hK
  have hs1 : dispatch (slotsOf (str "SET UI 1")) K cfg =
      .ok (ConfigSetUIMode cfg K.IBus_UI_CD53,
        [Event.ConfigSetUIMode K.IBus_UI_CD53, Event.LogRaw "UI Mode: CD53\r\n"]) := rfl
  have hs2 : dispatch (slotsOf (str "SET UI 2")) K cfg =
      .ok (ConfigSetUIMode cfg K.IBus_UI_BMBT,
        [Event.ConfigSetUIMode K.IBus_UI_BMBT, Event.LogRaw "UI Mode: BMBT\r\n"]) := rfl
  have hsl : slotsOf (str "GET UI") = [some (str "GET"), some (str "UI")] := by decide
  constructor
  · refine ⟨_, _, CLIProcess_ok_of_dispatch K set1 cfg _ _ rest1 _ h1 hq1 (by decide) hs1,
      CLIProcess_ok_of_dispatch K get _ _ _ rest _ hg hqg (by decide)
        (by rw [hsl]; exact dispatch_get_ui K _ []), ?_⟩
    simp [ConfigSetUIMode, Nat.mod_eq_of_lt hcd]
  · refine ⟨_, _, CLIProcess_ok_of_dispatch K set2 cfg _ _ rest2 _ h2 hq2 (by decide) hs2,
      CLIProcess_ok_of_dispatch K get _ _ _ rest _ hg hqg (by decide)
        (by rw [hsl]; exact dispatch_get_ui K _ []), ?_⟩
    simp [ConfigSetUIMode, Nat.mod_eq_of_lt hbm, Ne.symm hne]

theorem ui_mode_round_trip_witness :
    sampleConsts.uiModesOk ∧
    (∃ r1 r2 : Result,
      CLIProcess sampleConsts (cliOf (str "SET UI 1\r")) emptyConfig = .ok r1 ∧
      CLIProcess sampleConsts (cliOf (str "GET UI\r")) r1.config = .ok r2 ∧
      r2.events = preamble (cliOf (str "GET UI\r")) ++ [Event.LogRaw "UI Mode: CD53\r\n"]) ∧
    (∃ r1 r2 : Result,
      CLIProcess sampleConsts (cliOf (str "SET UI 2\r")) emptyConfig = .ok r1 ∧
      CLIProcess sampleConsts (cliOf (str "GET UI\r")) r1.config = .ok r2 ∧
      r2.events = preamble (cliOf (str "GET UI\r")) ++ [Event.LogRaw "UI Mode: BMBT\r\n"]) :=
  ⟨by decide,
   ui_mode_round_trip sampleConsts emptyConfig (cliOf (str "SET UI 1\r"))
     (cliOf (str "SET UI 2\r")) (cliOf (str "GET UI\r")) [] [] [] (by decide)
     (by decide) (by decide) (by decide) (by decide) (by decide) (by decide)⟩

/-- C9: for every stored UI mode byte that is neither `IBus_UI_CD53` nor
`IBus_UI_BMBT`, processing the frame "GET UI" returns, emits after the echo and
the newline exactly "UI Mode: Not set or Invalid\r\n", makes no other call and
leaves the configuration unchanged. -/
theorem get_ui_not_set (K : Consts) (cli : CLI_t) (cfg : Config) (rest : List Nat)
    (hc : cli.cursorsOk)
    (hq : cli.rxQueue.unread = str "GET UI" ++ CLI_MSG_END_CHAR :: rest)
    (hb : cfg.uiMode < 256)
    (h1 : cfg.uiMode ≠ K.IBus_UI_CD53) (h2 : cfg.uiMode ≠ K.IBus_UI_BMBT) :
    CLIProcess K cli cfg =
      .ok ⟨consumed cli 7, cfg,
           preamble cli ++ [Event.LogRaw "UI Mode: Not set or Invalid\r\n"]⟩ := by
  have hsl : slotsOf (str "GET UI") = [some (str "GET"), some (str "UI")] := by decide
  have hd : dispatch (slotsOf (str "GET UI")) K cfg =
      .ok (cfg, [Event.LogRaw "UI Mode: Not set or Invalid\r\n"]) := by
    rw [hsl, dispatch_get_ui K cfg []]
    simp [Nat.mod_eq_of_lt hb, h1, h2]
  exact CLIProcess_ok_of_dispatch K cli cfg cfg _ rest _ hc hq (by decide) hd

theorem get_ui_not_set_witness :
    emptyConfig.uiMode < 256 ∧
    CLIProcess sampleConsts (cliOf (str "GET UI\r")) emptyConfig =
      .ok ⟨consumed (cliOf (str "GET UI\r")) 7, emptyConfig,
           preamble (cliOf (str "GET UI\r")) ++
             [Event.LogRaw "UI Mode: Not set or Invalid\r\n"]⟩ :=
  ⟨by decide,
   get_ui_not_set sampleConsts (cliOf (str "GET UI\r")) emptyConfig [] (by decide) (by decide)
     (by decide) (by decide) (by decide)⟩

/-! ## Unknown commands -/

/-- C10: for every frame whose first token is not exactly one of BOOTLOADER,
BTRESET, BTRESETPDL, GET, REBOOT, SET, HELP (a first token is never empty),
`CLIProcess` returns, emits after the echo and the newline exactly the line
"Command Unknown. Try HELP" through `LogError`, makes no device call and leaves
the configuration unchanged. -/
theorem unknown_command_reported (K : Consts) (cli : CLI_t) (cfg : Config)
    (text rest t0 : List Nat) (ts : List (List Nat))
    (hc : cli.cursorsOk)
    (hq : cli.rxQueue.unread = text ++ CLI_MSG_END_CHAR :: rest)
    (ht : CLI_MSG_END_CHAR ∉ text)
    (htoks : maximalRuns (cstr text) = t0 :: ts)
    (hkw : t0 ∉ [str "BOOTLOADER", str "BTRESET", str "BTRESETPDL", str "GET", str "REBOOT",
      str "SET", str "HELP"]) :
    t0 ≠ [] ∧
    CLIProcess K cli cfg =
      .ok ⟨consumed cli (text.length + 1), cfg,
           preamble cli ++ [Event.LogError "Command Unknown. Try HELP"]⟩ := by
  have hne : t0 ≠ [] :=
    (maximalRuns_token (cstr text) t0 (by rw [htoks]; exact List.mem_cons_self _ _)).1
  refine ⟨hne, ?_⟩
  apply CLIProcess_ok_of_dispatch K cli cfg cfg text rest _ hc hq ht
  rw [slotsOf_cons text t0 ts htoks]
  exact dispatch_unknown K cfg t0 _ hkw hne

theorem unknown_command_reported_witness :
    CLIProcess sampleConsts (cliOf (str "help\r")) emptyConfig =
      .ok ⟨consumed (cliOf (str "help\r")) 5, emptyConfig,
           preamble (cliOf (str "help\r")) ++
             [Event.LogError "Command Unknown. Try HELP"]⟩ ∧
    CLIProcess sampleConsts (cliOf (str "BTRESETP\r")) emptyConfig =
      .ok ⟨consumed (cliOf (str "BTRESETP\r")) 9, emptyConfig,
           preamble (cliOf (str "BTRESETP\r")) ++
             [Event.LogError "Command Unknown. Try HELP"]⟩ ∧
    CLIProcess sampleConsts (cliOf (str "BTREBOOT\r")) emptyConfig =
      .ok ⟨consumed (cliOf (str "BTREBOOT\r")) 9, emptyConfig,
           preamble (cliOf (str "BTREBOOT\r")) ++
             [Event.LogError "Command Unknown. Try HELP"]⟩ :=
  ⟨(unknown_command_reported sampleConsts (cliOf (str "help\r")) emptyConfig
      (str "help") [] (str "help") [] (by decide) (by decide) (by decide) (by decide)
      (by decide)).2,
   (unknown_command_reported sampleConsts (cliOf (str "BTRESETP\r")) emptyConfig
      (str "BTRESETP") [] (str "BTRESETP") [] (by decide) (by decide) (by decide) (by decide)
      (by decide)).2,
   (unknown_command_reported sampleConsts (cliOf (str "BTREBOOT\r")) emptyConfig
      (str "BTREBOOT") [] (str "BTREBOOT") [] (by decide) (by decide) (by decide) (by decide)
      (by decide)).2⟩

/-! ## Token slots read by the dispatch chain -/

theorem slot_missing (toks : List (List Nat)) (m : Nat) :
    slot (toks.map some ++ List.replicate m none) toks.length =
      .error (missingSlot (toks.length + m) toks.length) := by
  rw [slot_unwritten]
  unfold missingSlot
  by_cases hm : 0 < m
  · simp [hm]
  · simp [hm]

theorem dispatchGet_ok (K : Consts) (cfg : Config) (t0 t1 : List Nat)
    (rest : List (Option (List Nat))) :
    ∃ p, dispatchGet (some t0 :: some t1 :: rest) K cfg = .ok p := by
  simp only [dispatchGet, slot, List.get?, bind, Except.bind]
  repeat' split
  all_goals exact ⟨_, rfl⟩

theorem dispatchSetLog_ok (K : Consts) (cfg : Config) (t0 t1 t2 t3 : List Nat)
    (rest : List (Option (List Nat))) :
    ∃ p, dispatchSetLog (some t0 :: some t1 :: some t2 :: some t3 :: rest) K cfg = .ok p := by
  have hite : ∀ (c : Prop) [Decidable c] (a b : Config × List Event),
      ∃ p, (if c then (pure a : Except Fault (Config × List Event)) else pure b) = .ok p := by
    intro c _ a b
    by_cases h : c
    · exact ⟨a, by rw [if_pos h]; rfl⟩
    · exact ⟨b, by rw [if_neg h]; rfl⟩
  simp only [dispatchSetLog, slot, List.get?, bind, Except.bind]
  exact hite _ _ _

theorem dispatchSet_three_ok (K : Consts) (cfg : Config) (t0 t1 t2 : List Nat)
    (rest : List (Option (List Nat))) (h : t1 ≠ str "LOG") :
    ∃ p, dispatchSet (some t0 :: some t1 :: some t2 :: rest) K cfg = .ok p := by
  simp only [dispatchSet, slot, List.get?, bind, Except.bind, strcmp_eq_zero_iff, h, if_false]
  repeat' split
  all_goals exact ⟨_, rfl⟩

theorem dispatch_route_get (K : Consts) (cfg : Config) (rest : List (Option (List Nat))) :
    dispatch (some (str "GET") :: rest) K cfg = dispatchGet (some (str "GET") :: rest) K cfg :=
  rfl

theorem dispatch_route_set (K : Consts) (cfg : Config) (rest : List (Option (List Nat))) :
    dispatch (some (str "SET") :: rest) K cfg = dispatchSet (some (str "SET") :: rest) K cfg :=
  rfl

theorem dispatchSet_route_log (K : Consts) (cfg : Config) (t0 : List Nat)
    (rest : List (Option (List Nat))) :
    dispatchSet (some t0 :: some (str "LOG") :: rest) K cfg =
      dispatchSetLog (some t0 :: some (str "LOG") :: rest) K cfg :=
  rfl

theorem dispatch_plain_ok (K : Consts) (cfg : Config) (t0 : List Nat)
    (rest : List (Option (List Nat))) (h1 : t0 ≠ str "GET") (h2 : t0 ≠ str "SET") :
    ∃ p, dispatch (some t0 :: rest) K cfg = .ok p := by
  simp only [dispatch, slot, List.get?, bind, Except.bind, strcmp_eq_zero_iff, h1, h2, if_false]
  split_ifs <;> exact ⟨_, rfl⟩

theorem dispatchGet_missing (K : Consts) (cfg : Config) (t0 : List Nat) (m : Nat) :
    dispatchGet ([t0].map some ++ List.replicate m none) K cfg =
      .error (missingSlot (1 + m) 1) := by
  have h := slot_missing [t0] m
  simp only [List.length_cons, List.length_nil, Nat.zero_add] at h
  simp only [dispatchGet, h, bind, Except.bind]

theorem dispatchSet_missing_one (K : Consts) (cfg : Config) (t0 : List Nat) (m : Nat) :
    dispatchSet ([t0].map some ++ List.replicate m none) K cfg =
      .error (missingSlot (1 + m) 1) := by
  have h := slot_missing [t0] m
  simp only [List.length_cons, List.length_nil, Nat.zero_add] at h
  simp only [dispatchSet, h, bind, Except.bind]

theorem dispatchSet_missing_two (K : Consts) (cfg : Config) (t0 t1 : List Nat) (m : Nat)
    (h1 : t1 = str "AUDIO" ∨ t1 = str "UI" ∨ t1 = str "IGN" ∨ t1 = str "LOG") :
    dispatchSet ([t0, t1].map some ++ List.replicate m none) K cfg =
      .error (missingSlot (2 + m) 2) := by
  have h := slot_missing [t0, t1] m
  simp only [List.length_cons, List.length_nil, Nat.zero_add] at h
  have hs1 : slot ([t0, t1].map some ++ List.replicate m none) 1 = .ok t1 :=
    slot_written [t0, t1] m 1 t1 rfl
  rcases h1 with rfl | rfl | rfl | rfl
  · simp only [dispatchSet, hs1, h, bind, Except.bind]
    rfl
  · simp only [dispatchSet, hs1, h, bind, Except.bind]
    rfl
  · simp only [dispatchSet, hs1, h, bind, Except.bind]
    rfl
  · simp only [dispatchSet, dispatchSetLog, hs1, h, bind, Except.bind]
    rfl

theorem dispatchSetLog_missing_three (K : Consts) (cfg : Config) (t0 t1 t2 : List Nat)
    (m : Nat) :
    dispatchSetLog ([t0, t1, t2].map some ++ List.replicate m none) K cfg =
      .error (missingSlot (3 + m) 3) := by
  have h := slot_missing [t0, t1, t2] m
  simp only [List.length_cons, List.length_nil, Nat.zero_add] at h
  have hs2 : slot ([t0, t1, t2].map some ++ List.replicate m none) 2 = .ok t2 :=
    slot_written [t0, t1, t2] m 2 t2 rfl
  simp only [dispatchSetLog, hs2, h, bind, Except.bind]

theorem dispatchSet_two_ok (K : Consts) (cfg : Config) (t0 t1 : List Nat)
    (rest : List (Option (List Nat)))
    (h1 : t1 ≠ str "AUDIO") (h2 : t1 ≠ str "UI") (h3 : t1 ≠ str "IGN") (h4 : t1 ≠ str "LOG") :
    ∃ p, dispatchSet (some t0 :: some t1 :: rest) K cfg = .ok p := by
  simp only [dispatchSet, slot, List.get?, bind, Except.bind, strcmp_eq_zero_iff, h1, h2, h3, h4,
    if_false]
  exact ⟨_, rfl⟩

theorem dispatchSet_guard (K : Consts) (cfg : Config) (ts : List (List Nat)) (m : Nat) :
    (tokensNeeded (str "SET" :: ts) ≤ (str "SET" :: ts).length →
      ∃ p, dispatchSet ((str "SET" :: ts).map some ++ List.replicate m none) K cfg = .ok p) ∧
    ((str "SET" :: ts).length < tokensNeeded (str "SET" :: ts) →
      dispatchSet ((str "SET" :: ts).map some ++ List.replicate m none) K cfg =
        .error (missingSlot ((str "SET" :: ts).length + m) (str "SET" :: ts).length)) := by
  have hsg : str "SET" ≠ str "GET" := by decide
  cases ts with
  | nil =>
    refine ⟨fun h => by simp [tokensNeeded, hsg] at h, fun _ => ?_⟩
    rw [dispatchSet_missing_one]
    simp [Nat.add_comm]
  | cons t1 ts =>
    by_cases h3 : t1 = str "AUDIO" ∨ t1 = str "UI" ∨ t1 = str "IGN"
    · cases ts with
      | nil =>
        refine ⟨fun h => by simp [tokensNeeded, hsg, h3] at h, fun _ => ?_⟩
        rw [dispatchSet_missing_two K cfg _ t1 m (by tauto)]
        simp [Nat.add_comm]
      | cons t2 ts =>
        refine ⟨fun _ => ?_, fun h => ?_⟩
        · refine dispatchSet_three_ok K cfg _ t1 t2 _ ?_
          rcases h3 with rfl | rfl | rfl <;> decide
        · simp [tokensNeeded, hsg, h3] at h
          omega
    · by_cases h4 : t1 = str "LOG"
      · subst h4
        cases ts with
        | nil =>
          refine ⟨fun h => by simp [tokensNeeded, hsg, h3] at h, fun _ => ?_⟩
          rw [dispatchSet_missing_two K cfg _ _ m (by tauto)]
          simp [Nat.add_comm]
        | cons t2 ts =>
          cases ts with
          | nil =>
            refine ⟨fun h => by simp [tokensNeeded, hsg, h3] at h, fun _ => ?_⟩
            have e : [str "SET", str "LOG", t2].map some ++ List.replicate m none =
                some (str "SET") :: some (str "LOG") :: (some t2 :: List.replicate m none) := rfl
            rw [e, dispatchSet_route_log, ← e, dispatchSetLog_missing_three]
            simp [Nat.add_comm]
          | cons t3 ts =>
            refine ⟨fun _ => ?_, fun h => ?_⟩
            · have e : (str "SET" :: str "LOG" :: t2 :: t3 :: ts).map some ++
                  List.replicate m none =
                  some (str "SET") :: some (str "LOG") :: some t2 :: some t3 ::
                    (ts.map some ++ List.replicate m none) := rfl
              rw [e, dispatchSet_route_log]
              exact dispatchSetLog_ok K cfg _ _ t2 t3 _
            · simp [tokensNeeded, hsg, h3] at h
              omega
      · refine ⟨fun _ => ?_, fun h => ?_⟩
        · simp only [not_or] at h3
          exact dispatchSet_two_ok K cfg _ t1 _ h3.1 h3.2.1 h3.2.2 h4
        · simp [tokensNeeded, hsg, h3, h4] at h
          omega

theorem dispatch_guard (K : Consts) (cfg : Config) (t0 : List Nat) (ts : List (List Nat))
    (m : Nat) :
    (tokensNeeded (t0 :: ts) ≤ (t0 :: ts).length →
      ∃ p, dispatch ((t0 :: ts).map some ++ List.replicate m none) K cfg = .ok p) ∧
    ((t0 :: ts).length < tokensNeeded (t0 :: ts) →
      dispatch ((t0 :: ts).map some ++ List.replicate m none) K cfg =
        .error (missingSlot ((t0 :: ts).length + m) (t0 :: ts).length)) := by
  have hslots : (t0 :: ts).map some ++ List.replicate m none =
      some t0 :: (ts.map some ++ List.replicate m none) := rfl
  by_cases hget : t0 = str "GET"
  · subst hget
    rw [hslots, dispatch_route_get, ← hslots]
    cases ts with
    | nil =>
      refine ⟨fun h => by simp [tokensNeeded] at h, fun _ => ?_⟩
      rw [dispatchGet_missing]
      simp [Nat.add_comm]
    | cons t1 ts =>
      refine ⟨fun _ => dispatchGet_ok K cfg _ t1 _, fun h => ?_⟩
      simp [tokensNeeded] at h
      omega
  · by_cases hset : t0 = str "SET"
    · subst hset
      rw [hslots, dispatch_route_set, ← hslots]
      exact dispatchSet_guard K cfg ts m
    · refine ⟨fun _ => ?_, fun h => ?_⟩
      · rw [hslots]
        exact dispatch_plain_ok K cfg t0 _ hget hset
      · simp [tokensNeeded, hget, hset] at h

theorem CLIProcess_token_reads (K : Consts) (cli : CLI_t) (cfg : Config)
    (text rest t0 : List Nat) (ts : List (List Nat))
    (hc : cli.cursorsOk) (hq : cli.rxQueue.unread = text ++ 13 :: rest) (ht : 13 ∉ text)
    (htoks : maximalRuns (cstr text) = t0 :: ts) :
    (tokensNeeded (t0 :: ts) ≤ (t0 :: ts).length → ∃ r, CLIProcess K cli cfg = .ok r) ∧
    ((t0 :: ts).length < tokensNeeded (t0 :: ts) →
      CLIProcess K cli cfg =
        .error (missingSlot (1 + text.count 32) (t0 :: ts).length)) := by
  have hle : (t0 :: ts).length ≤ 1 + text.count 32 := by
    rw [← htoks]
    exact Nat.le_trans (maximalRuns_length_le _) (Nat.add_le_add_left (cstr_count_le text) 1)
  have hs : slotsOf text = (t0 :: ts).map some ++
      List.replicate (1 + text.count 32 - (t0 :: ts).length) none := by
    simp only [slotsOf, htoks]
  obtain ⟨hok, herr⟩ := dispatch_guard K cfg t0 ts (1 + text.count 32 - (t0 :: ts).length)
  constructor
  · intro h
    obtain ⟨p, hp⟩ := hok h
    rw [← hs] at hp
    exact ⟨_, CLIProcess_ok_of_dispatch K cli cfg p.1 text rest p.2 hc hq ht hp⟩
  · intro h
    have he := herr h
    rw [← hs] at he
    have hsz : (t0 :: ts).length + (1 + text.count 32 - (t0 :: ts).length)
        = 1 + text.count 32 := by omega
    rw [hsz] at he
    exact CLIProcess_error_of_dispatch K cli cfg text rest _ hc hq ht he

/-- C2: evaluation at frames that lack a token their branch reads.  The
dispatch chain has no token-count check: for "GET", "SET UI" and "SET LOG BT"
the call reads `msgBuf[1]`, `msgBuf[2]` and `msgBuf[3]`, each past the end of
the `delimCount`-element array, and for "GET " (trailing space) it reads the
slot `msgBuf[1]` that the `strtok` loop never wrote; no error line is
emitted. -/
theorem missing_token_slot_is_read :
    CLIProcess sampleConsts (cliOf (str "GET\r")) emptyConfig =
      .error (Fault.outOfBounds 1) ∧
    CLIProcess sampleConsts (cliOf (str "SET UI\r")) emptyConfig =
      .error (Fault.outOfBounds 2) ∧
    CLIProcess sampleConsts (cliOf (str "SET LOG BT\r")) emptyConfig =
      .error (Fault.outOfBounds 3) ∧
    CLIProcess sampleConsts (cliOf (str "GET \r")) emptyConfig =
      .error (Fault.uninitialised 1) :=
  ⟨rfl, rfl, rfl, rfl⟩

/-- C3: evaluation at blank frames.  For the empty frame (`n = 0`) and for a
frame of `n` spaces the first `strtok` call returns `NULL`, the loop body never
runs and every slot of `msgBuf`, slot 0 included, stays unwritten; the
dispatch chain then reads the unwritten `msgBuf[0]`. -/
theorem blank_frame_leaves_slot_zero_unwritten (n : Nat) :
    strtok (cstr (strcpy (List.replicate n 32 ++ [0]))) (str " ") = none ∧
    tokenize (List.replicate n 32 ++ [0]) (n + 1) = .ok (List.replicate (n + 1) none) ∧
    (∀ (K : Consts) (cfg : Config),
      dispatch (List.replicate (n + 1) none) K cfg = .error (Fault.uninitialised 0)) := by
  have hc : cstr (strcpy (List.replicate n 32 ++ [0])) = List.replicate n 32 := by
    unfold strcpy
    rw [cstr_append_nul, cstr_cstr, cstr_append_nul]
    exact cstr_of_no_nul _ (by simp)
  have hs : strtok (List.replicate n 32) (str " ") = none := by
    unfold strtok
    simp only [space_contains]
    have : List.dropWhile (fun b => b == 32) (List.replicate n 32) = [] := by
      rw [List.dropWhile_eq_nil_iff]
      intro x hx
      simp [List.eq_of_mem_replicate hx]
    rw [this]
  refine ⟨by rw [hc]; exact hs, ?_, fun K cfg => rfl⟩
  show fillMsgBuf (strcpy (List.replicate n 32 ++ [0])).length
      (strtok (cstr (strcpy (List.replicate n 32 ++ [0]))) (str " ")) 0
      (List.replicate (n + 1) none) = .ok (List.replicate (n + 1) none)
  rw [hc, hs]
  cases h : (strcpy (List.replicate n 32 ++ [0])).length <;> rfl

/-- C4: evaluation at the empty frame.  A frame that is only the terminator
does not reach the help branch: the dispatch chain reads `msgBuf[0]`, which
the `strtok` loop never wrote, while the frame "HELP" prints the help text and
changes nothing else. -/
theorem empty_frame_does_not_reach_help (K : Consts) (cfg : Config) (empty help : CLI_t)
    (rest1 rest2 : List Nat) (h1 : empty.cursorsOk) (h2 : help.cursorsOk)
    (hq1 : empty.rxQueue.unread = CLI_MSG_END_CHAR :: rest1)
    (hq2 : help.rxQueue.unread = str "HELP" ++ CLI_MSG_END_CHAR :: rest2) :
    CLIProcess K empty cfg = .error (Fault.uninitialised 0) ∧
    CLIProcess K help cfg = .ok ⟨consumed help 5, cfg, preamble help ++ helpText⟩ :=
  ⟨CLIProcess_error_of_dispatch K empty cfg [] rest1 _ h1 hq1 (by simp) rfl,
   CLIProcess_ok_of_dispatch K help cfg cfg (str "HELP") rest2 _ h2 hq2 (by decide) rfl⟩

theorem empty_frame_does_not_reach_help_witness :
    CLIProcess sampleConsts (cliOf (str "\r")) emptyConfig = .error (Fault.uninitialised 0) ∧
    CLIProcess sampleConsts (cliOf (str "HELP\r")) emptyConfig =
      .ok ⟨consumed (cliOf (str "HELP\r")) 5, emptyConfig,
           preamble (cliOf (str "HELP\r")) ++ helpText⟩ :=
  empty_frame_does_not_reach_help sampleConsts emptyConfig (cliOf (str "\r"))
    (cliOf (str "HELP\r")) [] [] (by decide) (by decide) (by decide) (by decide)


/-! ## Frame extraction by one call -/

/-- C1: when the unread bytes hold exactly one terminator 0x0D, at offset `k`,
`CharQueueSeek` reports `k + 1`, the copy loop of `CLIProcess` consumes exactly
`k + 1` bytes (what stays unread is what followed the terminator), and the
message buffer holds the `k` bytes before the terminator followed by a NUL in
place of the terminator: a string of length `k` (as a C string whenever none of
the `k` bytes is itself 0x00).  One call of `CLIProcess` is, for every
configuration, the dispatch of the tokens of these `k` bytes carried out on the
console with exactly `k + 1` bytes consumed; whenever the frame holds the
tokens its branch reads the call returns, and the console it returns has
exactly these `k + 1` bytes consumed and the bytes after the terminator
unread. -/
theorem frame_extraction (cli : CLI_t) (k : Nat) (hc : cli.cursorsOk)
    (hone : cli.rxQueue.unread.count CLI_MSG_END_CHAR = 1)
    (hk : cli.rxQueue.unread.get? k = some CLI_MSG_END_CHAR) :
    CharQueueSeek cli.rxQueue CLI_MSG_END_CHAR % 256 = k + 1 ∧
    (readMessage (k + 1) cli.rxQueue [] 1).1 = (consumed cli (k + 1)).rxQueue ∧
    (consumed cli (k + 1)).rxQueue.unread = cli.rxQueue.unread.drop (k + 1) ∧
    (consumed cli (k + 1)).rxQueue.unread.length + (k + 1) = cli.rxQueue.unread.length ∧
    (readMessage (k + 1) cli.rxQueue [] 1).2.1 = cli.rxQueue.unread.take k ++ [0] ∧
    (cli.rxQueue.unread.take k).length = k ∧
    (0 ∉ cli.rxQueue.unread.take k →
      cstr (readMessage (k + 1) cli.rxQueue [] 1).2.1 = cli.rxQueue.unread.take k ∧
      strlen (cstr (readMessage (k + 1) cli.rxQueue [] 1).2.1) = k) ∧
    (∀ (K : Consts) (cfg : Config) (r : Result),
      CLIProcess K cli cfg = .ok r → r.cli = consumed cli (k + 1)) ∧
    (∀ (K : Consts) (cfg : Config),
      CLIProcess K cli cfg =
        (dispatch (slotsOf (cli.rxQueue.unread.take k)) K cfg).map
          (fun p => ⟨consumed cli (k + 1), p.1, preamble cli ++ p.2⟩)) ∧
    (∀ (K : Consts) (cfg : Config) (t0 : List Nat) (ts : List (List Nat)),
      maximalRuns (cstr (cli.rxQueue.unread.take k)) = t0 :: ts →
      tokensNeeded (t0 :: ts) ≤ (t0 :: ts).length →
      ∃ r : Result, CLIProcess K cli cfg = .ok r ∧ r.cli = consumed cli (k + 1) ∧
        r.cli.rxQueue.unread = cli.rxQueue.unread.drop (k + 1)) := by
  obtain ⟨hsplit, hpre, _, hlen⟩ := split_at_terminator _ k hone hk
  obtain ⟨hseek, hread⟩ := extract_frame cli.rxQueue _ _ hc.2.1 hsplit hpre
  rw [hlen] at hseek hread
  have hkl : k + 1 ≤ cli.rxQueue.unread.length := by
    have := congrArg List.length hsplit
    simp only [List.length_append, List.length_cons, hlen] at this
    omega
  have hdrop := unread_consumed cli (k + 1) hc hkl
  have hframe : ∀ (K : Consts) (cfg : Config),
      CLIProcess K cli cfg =
        (dispatch (slotsOf (cli.rxQueue.unread.take k)) K cfg).map
          (fun p => ⟨consumed cli (k + 1), p.1, preamble cli ++ p.2⟩) := by
    intro K cfg
    have h := CLIProcess_frame K cli cfg _ _ hc hsplit hpre
    rw [hlen] at h
    exact h
  have hret : ∀ (K : Consts) (cfg : Config) (r : Result),
      CLIProcess K cli cfg = .ok r → r.cli = consumed cli (k + 1) := by
    intro K cfg r hr
    rw [hframe K cfg] at hr
    cases hd : dispatch (slotsOf (List.take k cli.rxQueue.unread)) K cfg with
    | error e => rw [hd] at hr; cases hr
    | ok p =>
      rw [hd] at hr
      simp only [Except.map, Except.ok.injEq] at hr
      rw [← hr]
  refine ⟨hseek, ?_, hdrop, ?_, ?_, hlen, ?_, hret, hframe, ?_⟩
  · rw [hread]; rfl
  · rw [hdrop, List.length_drop]; omega
  · rw [hread]
  · intro h0
    rw [hread]
    simp only [cstr_append_nul, cstr_of_no_nul _ h0, strlen, hlen, and_self]
  · intro K cfg t0 ts htoks hneed
    obtain ⟨r, hr⟩ :=
      (CLIProcess_token_reads K cli cfg _ _ t0 ts hc hsplit hpre htoks).1 hneed
    have hcli := hret K cfg r hr
    exact ⟨r, hr, hcli, by rw [hcli]; exact hdrop⟩

theorem frame_extraction_witness :
    (cliOf (str "HELP\r")).cursorsOk ∧
    (cliOf (str "HELP\r")).rxQueue.unread.count CLI_MSG_END_CHAR = 1 ∧
    (cliOf (str "HELP\r")).rxQueue.unread.get? 4 = some CLI_MSG_END_CHAR ∧
    CharQueueSeek (cliOf (str "HELP\r")).rxQueue CLI_MSG_END_CHAR % 256 = 4 + 1 ∧
    (readMessage (4 + 1) (cliOf (str "HELP\r")).rxQueue [] 1).2.1 = str "HELP" ++ [0] ∧
    CLIProcess sampleConsts (cliOf (str "HELP\r")) emptyConfig =
      .ok ⟨consumed (cliOf (str "HELP\r")) (4 + 1), emptyConfig,
           preamble (cliOf (str "HELP\r")) ++ helpText⟩ ∧
    (∃ r : Result, CLIProcess sampleConsts (cliOf (str "HELP\r")) emptyConfig = .ok r ∧
      r.cli = consumed (cliOf (str "HELP\r")) (4 + 1) ∧
      r.cli.rxQueue.unread = (cliOf (str "HELP\r")).rxQueue.unread.drop (4 + 1)) :=
  have h := frame_extraction (cliOf (str "HELP\r")) 4 (by decide) (by decide) (by decide)
  ⟨by decide, by decide, by decide, h.1, h.2.2.2.2.1,
   (h.2.2.2.2.2.2.2.2.1 sampleConsts emptyConfig).trans rfl,
   h.2.2.2.2.2.2.2.2.2 sampleConsts emptyConfig (str "HELP") [] (by decide) (by decide)⟩

/-! ## Branches without a report -/

/-- C11: evaluation at frames whose branch neither acts nor reports.  For
"GET FOO", "SET FOO 1", "SET IGN 5" and "SET AUDIO FOO" the call returns with
the configuration unchanged and the dispatch chain makes no call at all: the
trace holds only the echo and the newline of line 52, no device action and no
diagnostic line. -/
theorem unknown_argument_is_silent :
    CLIProcess sampleConsts (cliOf (str "GET FOO\r")) emptyConfig =
      .ok ⟨consumed (cliOf (str "GET FOO\r")) 8, emptyConfig,
           preamble (cliOf (str "GET FOO\r"))⟩ ∧
    CLIProcess sampleConsts (cliOf (str "SET FOO 1\r")) emptyConfig =
      .ok ⟨consumed (cliOf (str "SET FOO 1\r")) 10, emptyConfig,
           preamble (cliOf (str "SET FOO 1\r"))⟩ ∧
    CLIProcess sampleConsts (cliOf (str "SET IGN 5\r")) emptyConfig =
      .ok ⟨consumed (cliOf (str "SET IGN 5\r")) 10, emptyConfig,
           preamble (cliOf (str "SET IGN 5\r"))⟩ ∧
    CLIProcess sampleConsts (cliOf (str "SET AUDIO FOO\r")) emptyConfig =
      .ok ⟨consumed (cliOf (str "SET AUDIO FOO\r")) 14, emptyConfig,
           preamble (cliOf (str "SET AUDIO FOO\r"))⟩ ∧
    preamble (cliOf (str "GET FOO\r")) = [Event.UARTSendChar 0x0A] :=
  ⟨rfl, rfl, rfl, rfl, rfl⟩

/-! ## Echo relay -/

/-- C12: for every echo cursor `lastChar` and write cursor `w` in 0..255 the
echo loop returns after sending exactly `(w - lastChar) mod 256` bytes, the
queue cells at indices `lastChar`, `lastChar + 1`, ..., `w - 1` modulo 256 in
that order (the indices are pairwise distinct, so each cell is sent once), and
leaves `lastChar = w`; the cursor step of lines 43-47 is
`(lastChar + 1) mod 256`, a second pass with the same `w` sends nothing, and
`CLIInit` starts the cursor at 0. -/
theorem echo_relay (cli : CLI_t) (hl : cli.lastChar < 256)
    (hw : cli.rxQueue.writeCursor < 256) :
    echoLoop 256 cli [] =
      .ok ({ cli with lastChar := cli.rxQueue.writeCursor },
           cli.pending.map Event.UARTSendChar) ∧
    cli.pending.length = (cli.rxQueue.writeCursor + 256 - cli.lastChar) % 256 ∧
    cli.pending =
      ((List.range ((cli.rxQueue.writeCursor + 256 - cli.lastChar) % 256)).map
        (fun j => (cli.lastChar + j) % 256)).map (CharQueueGet cli.rxQueue) ∧
    ((List.range ((cli.rxQueue.writeCursor + 256 - cli.lastChar) % 256)).map
        (fun j => (cli.lastChar + j) % 256)).Nodup ∧
    (if cli.lastChar ≥ 255 then 0 else cli.lastChar + 1) = (cli.lastChar + 1) % 256 ∧
    echoLoop 256 { cli with lastChar := cli.rxQueue.writeCursor } [] =
      .ok ({ cli with lastChar := cli.rxQueue.writeCursor }, []) ∧
    (CLIInit cli.rxQueue).lastChar = 0 := by
  refine ⟨?_, ?_, ?_, ?_, ?_, ?_, rfl⟩
  · have h := echoLoop_spec 256 cli [] hl hw (by omega)
    simpa using h
  · simp [CLI_t.pending, window_length]
  · simp [CLI_t.pending, window, CharQueueGet, List.map_map, Function.comp]
  · apply List.Nodup.map_on _ (List.nodup_range _)
    intro x hx y hy hxy
    have hx' := List.mem_range.1 hx
    have hy' := List.mem_range.1 hy
    simp only at hxy
    omega
  · split <;> omega
  · have h := echoLoop_spec 256 { cli with lastChar := cli.rxQueue.writeCursor } [] hw hw
      (by simp only; omega)
    have h0 : (cli.rxQueue.writeCursor + 256 - cli.rxQueue.writeCursor) % 256 = 0 := by omega
    simpa [CLI_t.pending, h0, window_zero] using h

theorem echo_relay_witness :
    (CLIInit (queueOf (str "GET U"))).lastChar < 256 ∧
    (CLIInit (queueOf (str "GET U"))).rxQueue.writeCursor < 256 ∧
    echoLoop 256 (CLIInit (queueOf (str "GET U"))) [] =
      .ok ({ CLIInit (queueOf (str "GET U")) with
              lastChar := (CLIInit (queueOf (str "GET U"))).rxQueue.writeCursor },
           (CLIInit (queueOf (str "GET U"))).pending.map Event.UARTSendChar) ∧
    (CLIInit (queueOf (str "GET U"))).pending = str "GET U" :=
  ⟨by decide, by decide,
   (echo_relay (CLIInit (queueOf (str "GET U"))) (by decide) (by decide)).1, by decide⟩

/-! ## EEPROM driver -/

theorem statusPoll_wire {σ : Type} (D : SPIDevice σ) (k : EEPROMOpcodes) (b : Bus σ)
    (hk : k.areBytes) : (statusPoll D k b).2.wire = b.wire ++ pollWire k := by
  obtain ⟨h1, _, _, _, h5⟩ := hk
  simp [statusPoll, setEEPROM_CS_PIN, EEPROMSend, pollWire, Nat.mod_eq_of_lt h1,
    Nat.mod_eq_of_lt h5]

theorem afterPolls_wire {σ : Type} (D : SPIDevice σ) (k : EEPROMOpcodes) (hk : k.areBytes)
    (n : Nat) : ∀ b : Bus σ,
      (afterPolls D k n b).wire = b.wire ++ (List.replicate n (pollWire k)).flatten := by
  induction n with
  | zero => intro b; simp [afterPolls]
  | succ n ih =>
    intro b
    rw [afterPolls, ih, statusPoll_wire D k b hk, List.replicate_succ, List.flatten_cons,
      List.append_assoc]

theorem afterPolls_succ {σ : Type} (D : SPIDevice σ) (k : EEPROMOpcodes) (n : Nat) :
    ∀ b : Bus σ, afterPolls D k (n + 1) b = (statusPoll D k (afterPolls D k n b)).2 := by
  induction n with
  | zero => intro b; rfl
  | succ n ih => intro b; rw [afterPolls, ih]; rfl

theorem EEPROMIsReadyLoop_spec {σ : Type} (D : SPIDevice σ) (k : EEPROMOpcodes) (n : Nat) :
    ∀ (fuel status : Nat) (b : Bus σ),
      status &&& EEPROM_STATUS_BUSY ≠ 0 →
      (∀ i, i < n → (statusPoll D k (afterPolls D k i b)).1 &&& EEPROM_STATUS_BUSY ≠ 0) →
      (statusPoll D k (afterPolls D k n b)).1 &&& EEPROM_STATUS_BUSY = 0 →
      n < fuel →
      EEPROMIsReadyLoop D k fuel status b = .ok (afterPolls D k (n + 1) b) := by
  induction n with
  | zero =>
    intro fuel status b hs _ hready hfuel
    cases fuel with
    | zero => omega
    | succ f =>
      simp only [afterPolls] at hready
      rw [EEPROMIsReadyLoop, if_pos hs]
      cases f with
      | zero => simp only [EEPROMIsReadyLoop, hready, ne_eq, not_true_eq_false, if_false]; rfl
      | succ f => simp only [EEPROMIsReadyLoop, hready, ne_eq, not_true_eq_false, if_false]; rfl
  | succ n ih =>
    intro fuel status b hs hbusy hready hfuel
    cases fuel with
    | zero => omega
    | succ f =>
      rw [EEPROMIsReadyLoop, if_pos hs]
      have h0 := hbusy 0 (by omega)
      simp only [afterPolls] at h0
      rw [ih f _ (statusPoll D k b).2 h0 (fun i hi => hbusy (i + 1) (by omega)) hready
        (by omega)]
      rfl

theorem EEPROMIsReady_spec {σ : Type} (D : SPIDevice σ) (k : EEPROMOpcodes) (n fuel : Nat)
    (b : Bus σ)
    (hbusy : ∀ i, i < n → (statusPoll D k (afterPolls D k i b)).1 &&& EEPROM_STATUS_BUSY ≠ 0)
    (hready : (statusPoll D k (afterPolls D k n b)).1 &&& EEPROM_STATUS_BUSY = 0)
    (hfuel : n < fuel) :
    EEPROMIsReady D k fuel b = .ok (afterPolls D k (n + 1) b) :=
  EEPROMIsReadyLoop_spec D k n fuel EEPROM_STATUS_BUSY b (by decide) hbusy hready hfuel

/-- C14: for every 8-bit address `a` and byte `d`, on a bus whose chip reports
busy at the first `n` status polls and ready at the next one, `EEPROMWriteByte`
returns and puts on the wire exactly: `n + 1` status polls (chip select low,
RDSR, the dummy byte, chip select high), the last being the first whose status
has the busy bit clear; then chip select low, WREN, chip select high; then chip
select low, WRITE, the address high byte `a >> 8` (0 for every 8-bit `a`), the
address low byte `a`, the data byte `d`, chip select high. -/
theorem write_wire_sequence {σ : Type} (D : SPIDevice σ) (k : EEPROMOpcodes) (b : Bus σ)
    (a d n fuel : Nat) (hk : k.areBytes) (ha : a < 256) (hd : d < 256)
    (hbusy : ∀ i, i < n → (statusPoll D k (afterPolls D k i b)).1 &&& EEPROM_STATUS_BUSY ≠ 0)
    (hready : (statusPoll D k (afterPolls D k n b)).1 &&& EEPROM_STATUS_BUSY = 0)
    (hfuel : n < fuel) :
    ∃ b1 : Bus σ,
      EEPROMWriteByte D k fuel a d b = .ok b1 ∧
      b1.wire = b.wire ++ (List.replicate (n + 1) (pollWire k)).flatten ++
        [Wire.CS 0, Wire.transfer k.EEPROM_COMMAND_WREN, Wire.CS 1,
         Wire.CS 0, Wire.transfer k.EEPROM_COMMAND_WRITE, Wire.transfer (a >>> 8),
         Wire.transfer a, Wire.transfer d, Wire.CS 1] ∧
      a >>> 8 = 0 ∧
      pollWire k = [Wire.CS 0, Wire.transfer k.EEPROM_COMMAND_RDSR,
        Wire.transfer k.EEPROM_COMMAND_GET, Wire.CS 1] := by
  have hready' := EEPROMIsReady_spec D k n fuel b hbusy hready hfuel
  have hw := afterPolls_wire D k hk (n + 1) b
  obtain ⟨_, h2, _, h4, _⟩ := hk
  have hshift : a >>> 8 = 0 := by
    rw [Nat.shiftRight_eq_div_pow]
    exact Nat.div_eq_of_lt ha
  simp only [EEPROMWriteByte, EEPROMEnableWrite, hready', bind, Except.bind, pure,
    Except.pure]
  refine ⟨_, rfl, ?_, hshift, rfl⟩
  simp [setEEPROM_CS_PIN, EEPROMSend, hw, Nat.mod_eq_of_lt h2, Nat.mod_eq_of_lt h4,
    Nat.mod_eq_of_lt ha, Nat.mod_eq_of_lt hd, hshift]

theorem write_wire_sequence_witness :
    ∃ b1 : Bus Chip,
      EEPROMWriteByte (eepromChip sampleOpcodes) sampleOpcodes 2 0x10 0xAB
        ⟨{ blankChip with busy := 1 }, []⟩ = .ok b1 ∧
      b1.wire = [] ++ (List.replicate (1 + 1) (pollWire sampleOpcodes)).flatten ++
        [Wire.CS 0, Wire.transfer sampleOpcodes.EEPROM_COMMAND_WREN, Wire.CS 1,
         Wire.CS 0, Wire.transfer sampleOpcodes.EEPROM_COMMAND_WRITE,
         Wire.transfer (0x10 >>> 8), Wire.transfer 0x10, Wire.transfer 0xAB, Wire.CS 1] :=
  match write_wire_sequence (eepromChip sampleOpcodes) sampleOpcodes
      ⟨{ blankChip with busy := 1 }, []⟩ 0x10 0xAB 1 2 (by decide) (by decide) (by decide)
      (by decide) (by decide) (by decide) with
  | ⟨b1, h1, h2, _⟩ => ⟨b1, h1, h2⟩

/-! ### The chip model on the bus -/

theorem statusRegister_busy (c : Chip) :
    (c.statusRegister % 256) &&& EEPROM_STATUS_BUSY ≠ 0 ↔ 0 < c.busy := by
  unfold Chip.statusRegister EEPROM_STATUS_BUSY
  by_cases hb : 0 < c.busy <;> cases hw : c.writeEnabled <;> simp [hb]

theorem chip_statusPoll (k : EEPROMOpcodes) (hk : k.areBytes) (c : Chip) (w : List Wire) :
    statusPoll (eepromChip k) k ⟨c, w⟩ =
      (c.statusRegister % 256,
       ⟨{ c with busy := c.busy - 1, phase := ChipPhase.deselected }, w ++ pollWire k⟩) := by
  obtain ⟨h1, _, _, _, h5⟩ := hk
  simp [statusPoll, setEEPROM_CS_PIN, EEPROMSend, eepromChip, Chip.chipSelect, Chip.exchange,
    pollWire, Nat.mod_eq_of_lt h1, Nat.mod_eq_of_lt h5, Chip.statusRegister]

theorem chip_afterPolls (k : EEPROMOpcodes) (hk : k.areBytes) (n : Nat) :
    ∀ (c : Chip) (w : List Wire), c.phase = ChipPhase.deselected →
      afterPolls (eepromChip k) k n ⟨c, w⟩ =
        ⟨{ c with busy := c.busy - n }, w ++ (List.replicate n (pollWire k)).flatten⟩ := by
  induction n with
  | zero => intro c w _; simp [afterPolls]
  | succ n ih =>
    intro c w hph
    rw [afterPolls, chip_statusPoll k hk c w, ih _ _ rfl]
    obtain ⟨m, b, we, ph, wc⟩ := c
    simp only at hph
    subst hph
    simp only [List.replicate_succ, List.flatten_cons, List.append_assoc, Bus.mk.injEq,
      Chip.mk.injEq, and_true, true_and]
    omega

theorem chip_ready (k : EEPROMOpcodes) (hk : k.areBytes) (c : Chip) (w : List Wire)
    (fuel : Nat) (hph : c.phase = ChipPhase.deselected) (hfuel : c.busy < fuel) :
    EEPROMIsReady (eepromChip k) k fuel ⟨c, w⟩ =
      .ok ⟨{ c with busy := 0 }, w ++ (List.replicate (c.busy + 1) (pollWire k)).flatten⟩ := by
  have h := EEPROMIsReady_spec (eepromChip k) k c.busy fuel ⟨c, w⟩
    (by
      intro i hi
      rw [chip_afterPolls k hk i c w hph, chip_statusPoll k hk, statusRegister_busy]
      simp only
      omega)
    (by
      have : ¬ ((statusPoll (eepromChip k) k (afterPolls (eepromChip k) k c.busy ⟨c, w⟩)).1
          &&& EEPROM_STATUS_BUSY ≠ 0) := by
        rw [chip_afterPolls k hk c.busy c w hph, chip_statusPoll k hk, statusRegister_busy]
        simp only
        omega
      simpa using this)
    hfuel
  rw [h, chip_afterPolls k hk (c.busy + 1) c w hph]
  have : c.busy - (c.busy + 1) = 0 := by omega
  rw [this]

theorem chip_write (k : EEPROMOpcodes) (hk : k.areBytes) (hd : k.areDistinct) (c : Chip)
    (w : List Wire) (a d fuel : Nat) (ha : a < 256) (hdb : d < 256)
    (hph : c.phase = ChipPhase.deselected) (hfuel : c.busy < fuel) :
    EEPROMWriteByte (eepromChip k) k fuel a d ⟨c, w⟩ =
      .ok ⟨{ mem := fun i => if i = a then d else c.mem i, busy := c.writeCycle,
             writeEnabled := false, phase := ChipPhase.deselected,
             writeCycle := c.writeCycle },
           w ++ (List.replicate (c.busy + 1) (pollWire k)).flatten ++
             [Wire.CS 0, Wire.transfer k.EEPROM_COMMAND_WREN, Wire.CS 1,
              Wire.CS 0, Wire.transfer k.EEPROM_COMMAND_WRITE, Wire.transfer 0,
              Wire.transfer a, Wire.transfer d, Wire.CS 1]⟩ := by
  have hready := chip_ready k hk c w fuel hph hfuel
  obtain ⟨_, h2, _, h4, _⟩ := hk
  obtain ⟨d1, d2, d3, d4, d5, d6⟩ := hd
  have hshift : a >>> 8 = 0 := by
    rw [Nat.shiftRight_eq_div_pow]
    exact Nat.div_eq_of_lt ha
  simp only [EEPROMWriteByte, EEPROMEnableWrite, hready, bind, Except.bind, pure, Except.pure]
  simp [setEEPROM_CS_PIN, EEPROMSend, eepromChip, Chip.chipSelect, Chip.exchange,
    Nat.mod_eq_of_lt h2, Nat.mod_eq_of_lt h4, Nat.mod_eq_of_lt ha, Nat.mod_eq_of_lt hdb,
    hshift, Ne.symm d1, Ne.symm d3, Ne.symm d5, Ne.symm d6, d4]

theorem chip_read (k : EEPROMOpcodes) (hk : k.areBytes) (hd : k.areDistinct) (c : Chip)
    (w : List Wire) (a fuel : Nat) (ha : a < 256) (hmem : c.mem a < 256)
    (hph : c.phase = ChipPhase.deselected) (hfuel : c.busy < fuel) :
    EEPROMReadByte (eepromChip k) k fuel a ⟨c, w⟩ =
      .ok (c.mem a,
           ⟨{ c with busy := 0, phase := ChipPhase.deselected },
            w ++ (List.replicate (c.busy + 1) (pollWire k)).flatten ++
              [Wire.CS 0, Wire.transfer k.EEPROM_COMMAND_READ, Wire.transfer 0,
               Wire.transfer a, Wire.transfer k.EEPROM_COMMAND_GET, Wire.CS 1]⟩) := by
  have hready := chip_ready k hk c w fuel hph hfuel
  obtain ⟨_, _, h3, _, h5⟩ := hk
  obtain ⟨d1, d2, d3, d4, d5, d6⟩ := hd
  have hshift : a >>> 8 = 0 := by
    rw [Nat.shiftRight_eq_div_pow]
    exact Nat.div_eq_of_lt ha
  simp only [EEPROMReadByte, hready, bind, Except.bind, pure, Except.pure]
  simp [setEEPROM_CS_PIN, EEPROMSend, eepromChip, Chip.chipSelect, Chip.exchange,
    Nat.mod_eq_of_lt h3, Nat.mod_eq_of_lt h5, Nat.mod_eq_of_lt ha, Nat.mod_eq_of_lt hmem,
    hshift, Ne.symm d2, Ne.symm d4]

/-- C13: over the chip model (a byte array that stores the data byte of a
WRITE preceded by WREN, stays busy for `writeCycle` status reads after a write
and answers READ with the stored byte), with distinct byte opcodes, for every
8-bit address `a` and byte `d`, `EEPROMWriteByte(a, d)` followed by
`EEPROMReadByte(a)` returns `d`; the readiness wait of the read sees the busy
bit set at each of its first `writeCycle` status polls (at least one) and clear
at the next, and only then is the READ opcode sent. -/
theorem eeprom_write_read_round_trip (k : EEPROMOpcodes) (c : Chip) (w : List Wire)
    (a d fuel1 fuel2 : Nat) (hk : k.areBytes) (hdist : k.areDistinct)
    (ha : a < 256) (hd : d < 256)
    (hph : c.phase = ChipPhase.deselected) (hcyc : 0 < c.writeCycle)
    (hf1 : c.busy < fuel1) (hf2 : c.writeCycle < fuel2) :
    ∃ b1 b2 : Bus Chip,
      EEPROMWriteByte (eepromChip k) k fuel1 a d ⟨c, w⟩ = .ok b1 ∧
      EEPROMReadByte (eepromChip k) k fuel2 a b1 = .ok (d, b2) ∧
      b1.dev.mem a = d ∧
      (statusPoll (eepromChip k) k b1).1 &&& EEPROM_STATUS_BUSY ≠ 0 ∧
      (∀ i, i < c.writeCycle →
        (statusPoll (eepromChip k) k (afterPolls (eepromChip k) k i b1)).1
          &&& EEPROM_STATUS_BUSY ≠ 0) ∧
      (statusPoll (eepromChip k) k (afterPolls (eepromChip k) k c.writeCycle b1)).1
        &&& EEPROM_STATUS_BUSY = 0 ∧
      b2.wire = b1.wire ++ (List.replicate (c.writeCycle + 1) (pollWire k)).flatten ++
        [Wire.CS 0, Wire.transfer k.EEPROM_COMMAND_READ, Wire.transfer 0,
         Wire.transfer a, Wire.transfer k.EEPROM_COMMAND_GET, Wire.CS 1] := by
  have hwr := chip_write k hk hdist c w a d fuel1 ha hd hph hf1
  have hrd := chip_read k hk hdist
    { mem := fun i => if i = a then d else c.mem i, busy := c.writeCycle,
      writeEnabled := false, phase := ChipPhase.deselected, writeCycle := c.writeCycle }
    (w ++ (List.replicate (c.busy + 1) (pollWire k)).flatten ++
      [Wire.CS 0, Wire.transfer k.EEPROM_COMMAND_WREN, Wire.CS 1,
       Wire.CS 0, Wire.transfer k.EEPROM_COMMAND_WRITE, Wire.transfer 0,
       Wire.transfer a, Wire.transfer d, Wire.CS 1])
    a fuel2 ha (by simp only [if_true]; exact hd) rfl hf2
  simp only [if_true] at hrd
  refine ⟨_, _, hwr, hrd, ?_, ?_, ?_, ?_, ?_⟩
  · simp
  · rw [chip_statusPoll k hk, statusRegister_busy]
    exact hcyc
  · intro i hi
    rw [chip_afterPolls k hk i _ _ rfl, chip_statusPoll k hk, statusRegister_busy]
    simp only
    omega
  · have : ¬ ((statusPoll (eepromChip k) k (afterPolls (eepromChip k) k c.writeCycle
        ⟨{ mem := fun i => if i = a then d else c.mem i, busy := c.writeCycle,
           writeEnabled := false, phase := ChipPhase.deselected,
           writeCycle := c.writeCycle },
         w ++ (List.replicate (c.busy + 1) (pollWire k)).flatten ++
          [Wire.CS 0, Wire.transfer k.EEPROM_COMMAND_WREN, Wire.CS 1,
           Wire.CS 0, Wire.transfer k.EEPROM_COMMAND_WRITE, Wire.transfer 0,
           Wire.transfer a, Wire.transfer d, Wire.CS 1]⟩)).1
        &&& EEPROM_STATUS_BUSY ≠ 0) := by
      rw [chip_afterPolls k hk c.writeCycle _ _ rfl, chip_statusPoll k hk, statusRegister_busy]
      simp only
      omega
    simpa using this
  · rfl

theorem eeprom_write_read_round_trip_witness :
    ∃ b1 b2 : Bus Chip,
      EEPROMWriteByte (eepromChip sampleOpcodes) sampleOpcodes 1 0x10 0xAB ⟨blankChip, []⟩
        = .ok b1 ∧
      EEPROMReadByte (eepromChip sampleOpcodes) sampleOpcodes 3 0x10 b1 = .ok (0xAB, b2) ∧
      (statusPoll (eepromChip sampleOpcodes) sampleOpcodes b1).1 &&& EEPROM_STATUS_BUSY ≠ 0 ∧
      (statusPoll (eepromChip sampleOpcodes) sampleOpcodes
        (afterPolls (eepromChip sampleOpcodes) sampleOpcodes blankChip.writeCycle b1)).1
          &&& EEPROM_STATUS_BUSY = 0 :=
  match eeprom_write_read_round_trip sampleOpcodes blankChip [] 0x10 0xAB 1 3
      (by decide) (by decide) (by decide) (by decide) rfl (by decide) (by decide)
      (by decide) with
  | ⟨b1, b2, h1, h2, _, h4, _, h6, _⟩ => ⟨b1, b2, h1, h2, h4, h6⟩

/-! ## SET LOG acceptance -/

theorem dispatch_set_log (K : Consts) (cfg : Config) (s v : List Nat)
    (rest : List (Option (List Nat))) :
    dispatch (some (str "SET") :: some (str "LOG") :: some s :: some v :: rest) K cfg =
      (if (if strcmp s (str "BT") = 0 then K.CONFIG_DEVICE_LOG_BT % 256
            else if strcmp s (str "IBUS") = 0 then K.CONFIG_DEVICE_LOG_IBUS % 256
            else if strcmp s (str "SYS") = 0 then K.CONFIG_DEVICE_LOG_SYSTEM % 256
            else if strcmp s (str "UI") = 0 then K.CONFIG_DEVICE_LOG_UI % 256
            else 0xFF) ≠ 0xFF ∧
          (if strcmp v (str "0") = 0 then 0
            else if strcmp v (str "1") = 0 then 1
            else 0xFF) ≠ 0xFF then
        .ok (ConfigSetLog cfg
              (if strcmp s (str "BT") = 0 then K.CONFIG_DEVICE_LOG_BT % 256
                else if strcmp s (str "IBUS") = 0 then K.CONFIG_DEVICE_LOG_IBUS % 256
                else if strcmp s (str "SYS") = 0 then K.CONFIG_DEVICE_LOG_SYSTEM % 256
                else if strcmp s (str "UI") = 0 then K.CONFIG_DEVICE_LOG_UI % 256
                else 0xFF)
              (if strcmp v (str "0") = 0 then 0
                else if strcmp v (str "1") = 0 then 1
                else 0xFF),
             [Event.ConfigSetLog
                (if strcmp s (str "BT") = 0 then K.CONFIG_DEVICE_LOG_BT % 256
                  else if strcmp s (str "IBUS") = 0 then K.CONFIG_DEVICE_LOG_IBUS % 256
                  else if strcmp s (str "SYS") = 0 then K.CONFIG_DEVICE_LOG_SYSTEM % 256
                  else if strcmp s (str "UI") = 0 then K.CONFIG_DEVICE_LOG_UI % 256
                  else 0xFF)
                (if strcmp v (str "0") = 0 then 0
                  else if strcmp v (str "1") = 0 then 1
                  else 0xFF),
              Event.LogRaw "Ok\r\n"])
      else .ok (cfg, [Event.LogRaw "Invalid Parameters for SET LOG\r\n"])) := rfl

theorem dispatch_set_log_ok (K : Consts) (cfg : Config) (s v : List Nat)
    (rest : List (Option (List Nat))) (hK : K.logSystemsOk)
    (hs : s ∈ logSystemNames) (hv : v ∈ logValueNames) :
    dispatch (some (str "SET") :: some (str "LOG") :: some s :: some v :: rest) K cfg =
      .ok (ConfigSetLog cfg (logSystemOf K s) (logValueOf v),
           [Event.ConfigSetLog (logSystemOf K s) (logValueOf v), Event.LogRaw "Ok\r\n"]) := by
  obtain ⟨h1, h2, h3, h4⟩ := hK
  have m1 : K.CONFIG_DEVICE_LOG_BT % 256 = K.CONFIG_DEVICE_LOG_BT :=
    Nat.mod_eq_of_lt (by omega)
  have m2 : K.CONFIG_DEVICE_LOG_IBUS % 256 = K.CONFIG_DEVICE_LOG_IBUS :=
    Nat.mod_eq_of_lt (by omega)
  have m3 : K.CONFIG_DEVICE_LOG_SYSTEM % 256 = K.CONFIG_DEVICE_LOG_SYSTEM :=
    Nat.mod_eq_of_lt (by omega)
  have m4 : K.CONFIG_DEVICE_LOG_UI % 256 = K.CONFIG_DEVICE_LOG_UI :=
    Nat.mod_eq_of_lt (by omega)
  have hsys : (if strcmp s (str "BT") = 0 then K.CONFIG_DEVICE_LOG_BT % 256
            else if strcmp s (str "IBUS") = 0 then K.CONFIG_DEVICE_LOG_IBUS % 256
            else if strcmp s (str "SYS") = 0 then K.CONFIG_DEVICE_LOG_SYSTEM % 256
            else if strcmp s (str "UI") = 0 then K.CONFIG_DEVICE_LOG_UI % 256
            else 0xFF) = logSystemOf K s := by
    simp only [logSystemNames, List.mem_cons, List.mem_singleton, List.not_mem_nil,
      or_false] at hs
    simp only [strcmp_eq_zero_iff, logSystemOf, m1, m2, m3, m4]
    rcases hs with rfl | rfl | rfl | rfl <;> rfl
  have hval : (if strcmp v (str "0") = 0 then 0
            else if strcmp v (str "1") = 0 then 1
            else 0xFF) = logValueOf v := by
    simp only [logValueNames, List.mem_cons, List.mem_singleton, List.not_mem_nil,
      or_false] at hv
    rcases hv with rfl | rfl <;> rfl
  have hsne : logSystemOf K s ≠ 0xFF := by
    unfold logSystemOf
    split_ifs <;> omega
  have hvne : logValueOf v ≠ 0xFF := by
    unfold logValueOf
    split_ifs <;> omega
  rw [dispatch_set_log, hsys, hval, if_pos ⟨hsne, hvne⟩]

/-- C15: for a frame whose tokens are SET, LOG, `s`, `v` with `s` one of BT,
IBUS, SYS, UI and `v` one of 0, 1 (the four system macros being bytes other
than 0xFF), `CLIProcess` calls `ConfigSetLog` exactly once, with the macro that
`s` names and the number `v` denotes, and then emits "Ok\r\n".  Together with
the rejection case: whatever `s` and `v` are, a `ConfigSetLog` call occurs in
the trace if and only if both resolve. -/
theorem set_log_accepted (K : Consts) (cli : CLI_t) (cfg : Config)
    (text rest s v : List Nat) (more : List (List Nat))
    (hK : K.logSystemsOk) (hc : cli.cursorsOk)
    (hq : cli.rxQueue.unread = text ++ CLI_MSG_END_CHAR :: rest)
    (ht : CLI_MSG_END_CHAR ∉ text)
    (htoks : maximalRuns (cstr text) = str "SET" :: str "LOG" :: s :: v :: more) :
    (s ∈ logSystemNames → v ∈ logValueNames →
      CLIProcess K cli cfg =
        .ok ⟨consumed cli (text.length + 1),
             ConfigSetLog cfg (logSystemOf K s) (logValueOf v),
             preamble cli ++
               [Event.ConfigSetLog (logSystemOf K s) (logValueOf v),
                Event.LogRaw "Ok\r\n"]⟩) ∧
    (∃ r : Result, CLIProcess K cli cfg = .ok r ∧
      ((∃ system value, Event.ConfigSetLog system value ∈ r.events) ↔
        (s ∈ logSystemNames ∧ v ∈ logValueNames))) ∧
    logSystemOf K (str "BT") = K.CONFIG_DEVICE_LOG_BT ∧
    logSystemOf K (str "IBUS") = K.CONFIG_DEVICE_LOG_IBUS ∧
    logSystemOf K (str "SYS") = K.CONFIG_DEVICE_LOG_SYSTEM ∧
    logSystemOf K (str "UI") = K.CONFIG_DEVICE_LOG_UI ∧
    logValueOf (str "0") = 0 ∧ logValueOf (str "1") = 1 := by
  have hs : slotsOf text = some (str "SET") :: some (str "LOG") :: some s :: some v ::
      (more.map some ++ List.replicate (1 + text.count 32 - (more.length + 4)) none) := by
    simp [slotsOf, htoks]
  have hacc : s ∈ logSystemNames → v ∈ logValueNames →
      CLIProcess K cli cfg =
        .ok ⟨consumed cli (text.length + 1),
             ConfigSetLog cfg (logSystemOf K s) (logValueOf v),
             preamble cli ++
               [Event.ConfigSetLog (logSystemOf K s) (logValueOf v),
                Event.LogRaw "Ok\r\n"]⟩ := by
    intro hsn hvn
    apply CLIProcess_ok_of_dispatch K cli cfg _ text rest _ hc hq ht
    rw [hs]
    exact dispatch_set_log_ok K cfg s v _ hK hsn hvn
  refine ⟨hacc, ?_, rfl, rfl, rfl, rfl, rfl, rfl⟩
  by_cases hres : s ∈ logSystemNames ∧ v ∈ logValueNames
  · refine ⟨_, hacc hres.1 hres.2, ?_⟩
    simp only [hres, and_self, iff_true]
    exact ⟨logSystemOf K s, logValueOf v, by simp⟩
  · have hbad : s ∉ [str "BT", str "IBUS", str "SYS", str "UI"] ∨ v ∉ [str "0", str "1"] := by
      by_cases h1 : s ∈ logSystemNames
      · exact Or.inr (fun h2 => hres ⟨h1, h2⟩)
      · exact Or.inl h1
    have hrej : CLIProcess K cli cfg =
        .ok ⟨consumed cli (text.length + 1), cfg,
             preamble cli ++ [Event.LogRaw "Invalid Parameters for SET LOG\r\n"]⟩ := by
      apply CLIProcess_ok_of_dispatch K cli cfg cfg text rest _ hc hq ht
      rw [hs]
      exact dispatch_set_log_invalid K cfg s v _ hbad
    refine ⟨_, hrej, ?_⟩
    simp only [hres, iff_false, not_exists]
    intro system value hmem
    simp [preamble] at hmem

theorem set_log_accepted_witness :
    sampleConsts.logSystemsOk ∧
    CLIProcess sampleConsts (cliOf (str "SET LOG IBUS 1\r")) emptyConfig =
      .ok ⟨consumed (cliOf (str "SET LOG IBUS 1\r")) 15,
           ConfigSetLog emptyConfig (logSystemOf sampleConsts (str "IBUS"))
             (logValueOf (str "1")),
           preamble (cliOf (str "SET LOG IBUS 1\r")) ++
             [Event.ConfigSetLog (logSystemOf sampleConsts (str "IBUS")) (logValueOf (str "1")),
              Event.LogRaw "Ok\r\n"]⟩ :=
  ⟨by decide,
   (set_log_accepted sampleConsts (cliOf (str "SET LOG IBUS 1\r")) emptyConfig
      (str "SET LOG IBUS 1") [] (str "IBUS") (str "1") [] (by decide) (by decide) (by decide)
      (by decide) (by decide)).1 (by decide) (by decide)⟩

/-! ## Token count against `delimCount` -/

theorem cstr_nil : cstr [] = [] := rfl

theorem cstr_cons_nul (s : List Nat) : cstr (0 :: s) = [] := by
  simp [cstr]

theorem cstr_cons (c : Nat) (s : List Nat) (hc : c ≠ 0) : cstr (c :: s) = c :: cstr s := by
  simp [cstr, hc]

theorem runs_length_single (c : Nat) (hc : c ≠ 32) : (maximalRuns [c]).length = 1 := by
  rw [maximalRuns_cons_token c [] hc]
  simp [maximalRuns_nil]

theorem runs_length_cons_space (c : Nat) (s : List Nat) (hc : c ≠ 32) :
    (maximalRuns (c :: 32 :: s)).length = 1 + (maximalRuns s).length := by
  rw [maximalRuns_cons_token c _ hc]
  simp
  omega

theorem runs_length_cons_cons (c d : Nat) (s : List Nat) (hc : c ≠ 32) (hd : d ≠ 32) :
    (maximalRuns (c :: d :: s)).length = (maximalRuns (d :: s)).length := by
  rw [maximalRuns_cons_token c _ hc, maximalRuns_cons_token d _ hd]
  simp [hd]

theorem spare_or_empty_tail (c : Nat) (s : List Nat) (hc : c ≠ 32)
    (h : hasSpareSpace (c :: 32 :: s)) : s = [] ∨ hasSpareSpace s := by
  rcases h with ⟨post, h⟩ | ⟨pre, h⟩ | ⟨pre, post, h⟩
  · simp only [List.cons.injEq] at h
    exact absurd h.1 hc
  · cases pre with
    | nil =>
      simp only [List.nil_append, List.cons.injEq] at h
      exact absurd h.1 hc
    | cons p pre =>
      simp only [List.cons_append, List.cons.injEq] at h
      cases pre with
      | nil =>
        simp only [List.nil_append, List.cons.injEq, true_and] at h
        exact Or.inl h.2
      | cons p2 pre =>
        simp only [List.cons_append, List.cons.injEq] at h
        exact Or.inr (Or.inr (Or.inl ⟨pre, h.2.2⟩))
  · cases pre with
    | nil =>
      simp only [List.nil_append, List.cons.injEq] at h
      exact absurd h.1 hc
    | cons p pre =>
      simp only [List.cons_append, List.cons.injEq] at h
      cases pre with
      | nil =>
        simp only [List.nil_append, List.cons.injEq] at h
        exact Or.inr (Or.inl ⟨post, h.2.2⟩)
      | cons p2 pre =>
        simp only [List.cons_append, List.cons.injEq] at h
        exact Or.inr (Or.inr (Or.inr ⟨pre, post, h.2.2⟩))

theorem spare_tail (c d : Nat) (s : List Nat) (hc : c ≠ 32)
    (h : hasSpareSpace (c :: d :: s)) : hasSpareSpace (d :: s) := by
  rcases h with ⟨post, h⟩ | ⟨pre, h⟩ | ⟨pre, post, h⟩
  · simp only [List.cons.injEq] at h
    exact absurd h.1 hc
  · cases pre with
    | nil => simp at h
    | cons p pre =>
      simp only [List.cons_append, List.cons.injEq] at h
      exact Or.inr (Or.inl ⟨pre, h.2⟩)
  · cases pre with
    | nil =>
      simp only [List.nil_append, List.cons.injEq] at h
      exact absurd h.1 hc
    | cons p pre =>
      simp only [List.cons_append, List.cons.injEq] at h
      exact Or.inr (Or.inr ⟨pre, post, h.2⟩)

theorem spare_has_space (s : List Nat) (h : hasSpareSpace s) : 0 < s.count 32 := by
  rw [List.count_pos_iff]
  rcases h with ⟨post, h⟩ | ⟨pre, h⟩ | ⟨pre, post, h⟩ <;> (rw [h]; simp)

theorem token_count_aux (n : Nat) :
    ∀ s : List Nat, s.length ≤ n →
      (maximalRuns (cstr s)).length ≤ 1 + s.count 32 ∧
      ((s = [] ∨ hasSpareSpace s) → (maximalRuns (cstr s)).length ≤ s.count 32) := by
  induction n with
  | zero =>
    intro s hs
    have : s = [] := List.length_eq_zero.1 (by omega)
    subst this
    simp [cstr_nil, maximalRuns_nil]
  | succ n ih =>
    intro s hs
    cases s with
    | nil => simp [cstr_nil, maximalRuns_nil]
    | cons c s =>
      simp only [List.length_cons] at hs
      by_cases h0 : c = 0
      · subst h0
        simp [cstr_cons_nul, maximalRuns_nil]
      · by_cases h32 : c = 32
        · subst h32
          have h1 := (ih s (by omega)).1
          rw [cstr_cons 32 s (by decide), maximalRuns_cons_space, List.count_cons_self]
          constructor
          · omega
          · intro _; omega
        · have hcnt : (c :: s).count 32 = s.count 32 := by
            rw [List.count_cons_of_ne (fun e => h32 e.symm)]
          cases s with
          | nil =>
            rw [cstr_cons c [] h0, cstr_nil, runs_length_single c h32]
            refine ⟨by omega, ?_⟩
            intro h
            rcases h with h | h
            · cases h
            · exfalso
              rcases h with ⟨post, h⟩ | ⟨pre, h⟩ | ⟨pre, post, h⟩
              · simp only [List.cons.injEq] at h
                exact h32 h.1
              · cases pre with
                | nil =>
                  simp only [List.nil_append, List.cons.injEq] at h
                  exact h32 h.1
                | cons p pre =>
                  simp only [List.cons_append, List.cons.injEq] at h
                  simp at h
              · cases pre with
                | nil =>
                  simp only [List.nil_append, List.cons.injEq] at h
                  exact h32 h.1
                | cons p pre =>
                  simp only [List.cons_append, List.cons.injEq] at h
                  simp at h
          | cons d s =>
            simp only [List.length_cons] at hs
            by_cases hd0 : d = 0
            · subst hd0
              rw [cstr_cons c _ h0, cstr_cons_nul, runs_length_single c h32]
              refine ⟨by omega, ?_⟩
              intro h
              rcases h with h | h
              · cases h
              · exact spare_has_space _ h
            · by_cases hd32 : d = 32
              · subst hd32
                have hrec := ih s (by omega)
                rw [cstr_cons c _ h0, cstr_cons 32 s (by decide),
                  runs_length_cons_space c _ h32, hcnt, List.count_cons_self]
                refine ⟨by omega, ?_⟩
                intro h
                rcases h with h | h
                · cases h
                · have := hrec.2 (spare_or_empty_tail c s h32 h)
                  omega
              · have hrec := ih (d :: s) (by simp only [List.length_cons]; omega)
                rw [cstr_cons c _ h0, cstr_cons d s hd0, runs_length_cons_cons c d _ h32 hd32,
                  ← cstr_cons d s hd0, hcnt]
                refine ⟨hrec.1, ?_⟩
                intro h
                rcases h with h | h
                · cases h
                · exact hrec.2 (Or.inr (spare_tail c d s h32 h))

theorem token_count_spare (text : List Nat) (h : hasSpareSpace text) :
    (maximalRuns (cstr text)).length < 1 + text.count 32 := by
  have := (token_count_aux text.length text (Nat.le_refl _)).2 (Or.inr h)
  omega

/-- C16: for every frame found in the queue (at most 255 bytes with its
terminator), the 8-bit `delimCount` computed by the copy loop is one more than
the number of spaces of the frame and does not wrap (it is at most 255); the
`strtok` loop returns without writing past `msgBuf[delimCount]`, the tokens it
writes fill the first slots and number at most `delimCount`; when the frame has
a leading, trailing or doubled space the token count is strictly smaller and
every slot from the token count up to `delimCount` is left unwritten. -/
theorem msgBuf_never_overrun (cli : CLI_t) (text rest : List Nat)
    (hc : cli.cursorsOk)
    (hq : cli.rxQueue.unread = text ++ CLI_MSG_END_CHAR :: rest)
    (ht : CLI_MSG_END_CHAR ∉ text) :
    text.length + 1 ≤ 255 ∧
    readMessage (CharQueueSeek cli.rxQueue CLI_MSG_END_CHAR % 256) cli.rxQueue [] 1 =
      ((consumed cli (text.length + 1)).rxQueue, text ++ [0], 1 + text.count 32) ∧
    1 + text.count 32 ≤ 255 ∧
    tokenize (text ++ [0]) (1 + text.count 32) =
      .ok ((maximalRuns (cstr text)).map some ++
        List.replicate (1 + text.count 32 - (maximalRuns (cstr text)).length) none) ∧
    (maximalRuns (cstr text)).length ≤ 1 + text.count 32 ∧
    (hasSpareSpace text →
      (maximalRuns (cstr text)).length < 1 + text.count 32 ∧
      ∀ i, (maximalRuns (cstr text)).length ≤ i → i < 1 + text.count 32 →
        ((maximalRuns (cstr text)).map some ++
          List.replicate (1 + text.count 32 - (maximalRuns (cstr text)).length) none).get? i
          = some none) := by
  obtain ⟨hseek, hread⟩ := extract_frame cli.rxQueue text rest hc.2.1 hq ht
  have hlen : text.length + 1 ≤ 255 := by
    have h1 := unread_length_le cli.rxQueue
    rw [hq] at h1
    simp only [List.length_append, List.length_cons] at h1
    omega
  have hcount : text.count 32 ≤ text.length := List.count_le_length 32 text
  have hle := (token_count_aux text.length text (Nat.le_refl _)).1
  refine ⟨hlen, ?_, by omega, ?_, hle, ?_⟩
  · rw [hseek, hread]; rfl
  · exact tokenize_spec text (1 + text.count 32) (Nat.le_refl _) (by omega)
  · intro hsp
    refine ⟨token_count_spare text hsp, ?_⟩
    intro i hi1 hi2
    rw [List.get?_eq_getElem?, List.getElem?_append_right (by simpa using hi1)]
    rw [List.getElem?_replicate]
    simp only [List.length_map]
    rw [if_pos (by omega)]

theorem msgBuf_never_overrun_witness :
    hasSpareSpace (str "SET  UI 1") ∧
    tokenize (str "SET  UI 1" ++ [0]) (1 + (str "SET  UI 1").count 32) =
      .ok ((maximalRuns (cstr (str "SET  UI 1"))).map some ++
        List.replicate
          (1 + (str "SET  UI 1").count 32 - (maximalRuns (cstr (str "SET  UI 1"))).length)
          none) ∧
    (maximalRuns (cstr (str "SET  UI 1"))).length < 1 + (str "SET  UI 1").count 32 :=
  have hsp : hasSpareSpace (str "SET  UI 1") :=
    Or.inr (Or.inr ⟨str "SET", str "UI 1", by decide⟩)
  have h := msgBuf_never_overrun (cliOf (str "SET  UI 1\r")) (str "SET  UI 1") []
    (by decide) (by decide) (by decide)
  ⟨hsp, h.2.2.2.1, (h.2.2.2.2.2 hsp).1⟩

/-! ## One frame per call -/

/-- C17: when the unread bytes hold two terminators or more, one call of
`CLIProcess` consumes exactly the bytes up to and including the first
terminator and dispatches exactly that frame; every byte after the first
terminator stays unread, and the next call extracts the second frame
unchanged, with nothing left to echo. -/
theorem one_frame_per_call (K : Consts) (cli : CLI_t) (cfg : Config)
    (text1 text2 rest : List Nat) (hc : cli.cursorsOk)
    (hq : cli.rxQueue.unread =
      text1 ++ CLI_MSG_END_CHAR :: (text2 ++ CLI_MSG_END_CHAR :: rest))
    (h1 : CLI_MSG_END_CHAR ∉ text1) (h2 : CLI_MSG_END_CHAR ∉ text2) :
    (readMessage (CharQueueSeek cli.rxQueue CLI_MSG_END_CHAR % 256) cli.rxQueue [] 1).2.1 =
      text1 ++ [0] ∧
    CLIProcess K cli cfg =
      (dispatch (slotsOf text1) K cfg).map
        (fun p => ⟨consumed cli (text1.length + 1), p.1, preamble cli ++ p.2⟩) ∧
    (consumed cli (text1.length + 1)).rxQueue.unread = text2 ++ CLI_MSG_END_CHAR :: rest ∧
    (∀ cfg1 : Config,
      CLIProcess K (consumed cli (text1.length + 1)) cfg1 =
        (dispatch (slotsOf text2) K cfg1).map
          (fun p => ⟨consumed (consumed cli (text1.length + 1)) (text2.length + 1), p.1,
                     Event.UARTSendChar 0x0A :: p.2⟩)) := by
  obtain ⟨hseek, hread⟩ := extract_frame cli.rxQueue text1 _ hc.2.1 hq h1
  have hlen : text1.length + 1 ≤ cli.rxQueue.unread.length := by
    rw [hq]; simp only [List.length_append, List.length_cons]; omega
  have hun : (consumed cli (text1.length + 1)).rxQueue.unread
      = text2 ++ CLI_MSG_END_CHAR :: rest := by
    rw [unread_consumed cli _ hc hlen, hq]
    have : text1 ++ CLI_MSG_END_CHAR :: (text2 ++ CLI_MSG_END_CHAR :: rest)
        = (text1 ++ [CLI_MSG_END_CHAR]) ++ (text2 ++ CLI_MSG_END_CHAR :: rest) := by simp
    rw [this, List.drop_left' (by simp)]
  have hc2 : (consumed cli (text1.length + 1)).cursorsOk :=
    ⟨hc.2.2, Nat.mod_lt _ (by decide), hc.2.2⟩
  refine ⟨by rw [hseek, hread], CLIProcess_frame K cli cfg text1 _ hc hq h1, hun, ?_⟩
  intro cfg1
  rw [CLIProcess_frame K _ cfg1 text2 rest hc2 hun h2]
  have hp : preamble (consumed cli (text1.length + 1)) = [Event.UARTSendChar 0x0A] := by
    have h0 : (cli.rxQueue.writeCursor + 256 - cli.rxQueue.writeCursor) % 256 = 0 := by omega
    simp [preamble, CLI_t.pending, consumed, h0, window_zero]
  rw [hp]
  rfl

theorem one_frame_per_call_witness :
    (CLIProcess sampleConsts (CLIInit (queueOf (str "SET UI 1\rGET UI\r"))) emptyConfig =
      (dispatch (slotsOf (str "SET UI 1")) sampleConsts emptyConfig).map
        (fun p => ⟨consumed (CLIInit (queueOf (str "SET UI 1\rGET UI\r"))) 9, p.1,
                   preamble (CLIInit (queueOf (str "SET UI 1\rGET UI\r"))) ++ p.2⟩)) ∧
    (consumed (CLIInit (queueOf (str "SET UI 1\rGET UI\r"))) 9).rxQueue.unread =
      str "GET UI\r" :=
  have h := one_frame_per_call sampleConsts (CLIInit (queueOf (str "SET UI 1\rGET UI\r")))
    emptyConfig (str "SET UI 1") (str "GET UI") [] (by decide) (by decide) (by decide)
    (by decide)
  ⟨h.2.1, h.2.2.1⟩

/-! ## BOOTLOADER, REBOOT, SET AUDIO -/

/-- C18: processing a frame whose first token is BOOTLOADER produces, after the
echo and the newline, exactly the log line "Rebooting into bootloader\r\n",
then `ConfigSetBootloaderMode(0x01)`, then 256 `Nop` iterations, then the
reset, with nothing in between; the flag is stored before the reset.  A frame
whose first token is REBOOT resets without writing the bootloader flag. -/
theorem bootloader_ordering (K : Consts) (cfg : Config) (boot reboot : CLI_t)
    (text1 rest1 text2 rest2 : List Nat) (ts1 ts2 : List (List Nat))
    (hb : boot.cursorsOk) (hr : reboot.cursorsOk)
    (hq1 : boot.rxQueue.unread = text1 ++ CLI_MSG_END_CHAR :: rest1)
    (ht1 : CLI_MSG_END_CHAR ∉ text1)
    (htoks1 : maximalRuns (cstr text1) = str "BOOTLOADER" :: ts1)
    (hq2 : reboot.rxQueue.unread = text2 ++ CLI_MSG_END_CHAR :: rest2)
    (ht2 : CLI_MSG_END_CHAR ∉ text2)
    (htoks2 : maximalRuns (cstr text2) = str "REBOOT" :: ts2) :
    CLIProcess K boot cfg =
      .ok ⟨consumed boot (text1.length + 1), ConfigSetBootloaderMode cfg 0x01,
           preamble boot ++
             ([Event.LogRaw "Rebooting into bootloader\r\n",
               Event.ConfigSetBootloaderMode 0x01] ++
              List.replicate 256 Event.Nop ++ [Event.reset])⟩ ∧
    (ConfigSetBootloaderMode cfg 0x01).bootloaderMode = 0x01 ∧
    CLIProcess K reboot cfg =
      .ok ⟨consumed reboot (text2.length + 1), cfg, preamble reboot ++ [Event.reset]⟩ := by
  refine ⟨?_, rfl, ?_⟩
  · apply CLIProcess_ok_of_dispatch K boot cfg _ text1 rest1 _ hb hq1 ht1
    rw [slotsOf_cons text1 _ ts1 htoks1]
    rfl
  · apply CLIProcess_ok_of_dispatch K reboot cfg _ text2 rest2 _ hr hq2 ht2
    rw [slotsOf_cons text2 _ ts2 htoks2]
    rfl

theorem bootloader_ordering_witness :
    CLIProcess sampleConsts (cliOf (str "BOOTLOADER\r")) emptyConfig =
      .ok ⟨consumed (cliOf (str "BOOTLOADER\r")) 11, ConfigSetBootloaderMode emptyConfig 0x01,
           preamble (cliOf (str "BOOTLOADER\r")) ++
             ([Event.LogRaw "Rebooting into bootloader\r\n",
               Event.ConfigSetBootloaderMode 0x01] ++
              List.replicate 256 Event.Nop ++ [Event.reset])⟩ ∧
    CLIProcess sampleConsts (cliOf (str "REBOOT\r")) emptyConfig =
      .ok ⟨consumed (cliOf (str "REBOOT\r")) 7, emptyConfig,
           preamble (cliOf (str "REBOOT\r")) ++ [Event.reset]⟩ :=
  have h := bootloader_ordering sampleConsts emptyConfig (cliOf (str "BOOTLOADER\r"))
    (cliOf (str "REBOOT\r")) (str "BOOTLOADER") [] (str "REBOOT") [] [] []
    (by decide) (by decide) (by decide) (by decide) (by decide) (by decide) (by decide)
    (by decide)
  ⟨h.1, h.2.2⟩

theorem dispatch_set_audio (K : Consts) (cfg : Config) (t2 : List Nat)
    (rest : List (Option (List Nat))) :
    dispatch (some (str "SET") :: some (str "AUDIO") :: some t2 :: rest) K cfg =
      .ok (cfg,
        if t2 = str "ANALOG" then
          [Event.BC127CommandSetAudioDigital BC127Audio.BC127_AUDIO_I2S "44100" "64" "100800"]
        else if t2 = str "DIGITAL" then
          [Event.BC127CommandSetAudioDigital BC127Audio.BC127_AUDIO_SPDIF "48000" "0" "000000"]
        else []) := by
  have e : dispatch (some (str "SET") :: some (str "AUDIO") :: some t2 :: rest) K cfg =
      (if strcmp t2 (str "ANALOG") = 0 then
        pure (cfg, [Event.BC127CommandSetAudioDigital BC127Audio.BC127_AUDIO_I2S
          "44100" "64" "100800"])
      else if strcmp t2 (str "DIGITAL") = 0 then
        pure (cfg, [Event.BC127CommandSetAudioDigital BC127Audio.BC127_AUDIO_SPDIF
          "48000" "0" "000000"])
      else pure (cfg, [])) := rfl
  rw [e]
  simp only [strcmp_eq_zero_iff]
  split
  · rfl
  · split <;> rfl

/-- C19: for a frame whose tokens are SET, AUDIO and a third token, the
dispatch chain calls `BC127CommandSetAudioDigital` exactly once with
(`BC127_AUDIO_I2S`, "44100", "64", "100800") when the third token is ANALOG,
exactly once with (`BC127_AUDIO_SPDIF`, "48000", "0", "000000") when it is
DIGITAL, and makes no call at all for every other third token; the
configuration is unchanged. -/
theorem set_audio_mapping (K : Consts) (cli : CLI_t) (cfg : Config)
    (text rest t2 : List Nat) (more : List (List Nat))
    (hc : cli.cursorsOk)
    (hq : cli.rxQueue.unread = text ++ CLI_MSG_END_CHAR :: rest)
    (ht : CLI_MSG_END_CHAR ∉ text)
    (htoks : maximalRuns (cstr text) = str "SET" :: str "AUDIO" :: t2 :: more) :
    CLIProcess K cli cfg =
      .ok ⟨consumed cli (text.length + 1), cfg,
        preamble cli ++
          (if t2 = str "ANALOG" then
            [Event.BC127CommandSetAudioDigital BC127Audio.BC127_AUDIO_I2S
              "44100" "64" "100800"]
          else if t2 = str "DIGITAL" then
            [Event.BC127CommandSetAudioDigital BC127Audio.BC127_AUDIO_SPDIF
              "48000" "0" "000000"]
          else [])⟩ := by
  apply CLIProcess_ok_of_dispatch K cli cfg cfg text rest _ hc hq ht
  have hs : slotsOf text = some (str "SET") :: some (str "AUDIO") :: some t2 ::
      (more.map some ++ List.replicate (1 + text.count 32 - (more.length + 3)) none) := by
    simp [slotsOf, htoks]
  rw [hs]
  exact dispatch_set_audio K cfg t2 _

theorem set_audio_mapping_witness :
    CLIProcess sampleConsts (cliOf (str "SET AUDIO ANALOG\r")) emptyConfig =
      .ok ⟨consumed (cliOf (str "SET AUDIO ANALOG\r")) 17, emptyConfig,
        preamble (cliOf (str "SET AUDIO ANALOG\r")) ++
          [Event.BC127CommandSetAudioDigital BC127Audio.BC127_AUDIO_I2S
            "44100" "64" "100800"]⟩ ∧
    CLIProcess sampleConsts (cliOf (str "SET AUDIO DIGITAL\r")) emptyConfig =
      .ok ⟨consumed (cliOf (str "SET AUDIO DIGITAL\r")) 18, emptyConfig,
        preamble (cliOf (str "SET AUDIO DIGITAL\r")) ++
          [Event.BC127CommandSetAudioDigital BC127Audio.BC127_AUDIO_SPDIF
            "48000" "0" "000000"]⟩ ∧
    CLIProcess sampleConsts (cliOf (str "SET AUDIO FOO\r")) emptyConfig =
      .ok ⟨consumed (cliOf (str "SET AUDIO FOO\r")) 14, emptyConfig,
        preamble (cliOf (str "SET AUDIO FOO\r")) ++ []⟩ :=
  ⟨set_audio_mapping sampleConsts (cliOf (str "SET AUDIO ANALOG\r")) emptyConfig
      (str "SET AUDIO ANALOG") [] (str "ANALOG") [] (by decide) (by decide) (by decide)
      (by decide),
   set_audio_mapping sampleConsts (cliOf (str "SET AUDIO DIGITAL\r")) emptyConfig
      (str "SET AUDIO DIGITAL") [] (str "DIGITAL") [] (by decide) (by decide) (by decide)
      (by decide),
   set_audio_mapping sampleConsts (cliOf (str "SET AUDIO FOO\r")) emptyConfig
      (str "SET AUDIO FOO") [] (str "FOO") [] (by decide) (by decide) (by decide)
      (by decide)⟩

/-! ## Configuration frame condition -/

theorem slot_ok_get (toks : List (List Nat)) (m i : Nat) (t : List Nat)
    (h : slot (toks.map some ++ List.replicate m none) i = .ok t) :
    toks.get? i = some t := by
  rcases Nat.lt_or_ge i toks.length with hi | hi
  · have hget : toks.get? i = some (toks.get ⟨i, hi⟩) := by
      rw [List.get?_eq_getElem?, List.getElem?_eq_getElem hi]; rfl
    rw [slot_written toks m i _ hget] at h
    rw [hget]
    cases h
    rfl
  · exfalso
    unfold slot at h
    rw [List.get?_eq_getElem?, List.getElem?_append_right (by simpa using hi),
      List.getElem?_replicate] at h
    split at h
    · rename_i heq
      split at heq <;> cases heq
    · cases h
    · cases h

theorem dispatchGet_config (msgBuf : List (Option (List Nat))) (K : Consts) (cfg : Config)
    (p : Config × List Event) (h : dispatchGet msgBuf K cfg = .ok p) : p.1 = cfg := by
  unfold dispatchGet at h
  cases hs : slot msgBuf 1 with
  | error e => rw [hs] at h; cases h
  | ok t1 =>
    rw [hs] at h
    simp only [bind, Except.bind, pure, Except.pure] at h
    split_ifs at h <;> (cases h; rfl)

theorem dispatchSetLog_config (msgBuf : List (Option (List Nat))) (K : Consts) (cfg : Config)
    (p : Config × List Event) (h : dispatchSetLog msgBuf K cfg = .ok p) :
    p.1 = cfg ∨
    (∃ s v, slot msgBuf 2 = .ok s ∧ slot msgBuf 3 = .ok v ∧ s ∈ logSystemNames ∧
      v ∈ logValueNames ∧ ∃ system value, p.1 = ConfigSetLog cfg system value) := by
  unfold dispatchSetLog at h
  cases hs2 : slot msgBuf 2 with
  | error e => rw [hs2] at h; cases h
  | ok s =>
    cases hs3 : slot msgBuf 3 with
    | error e => rw [hs2, hs3] at h; cases h
    | ok v =>
      rw [hs2, hs3] at h
      simp only [bind, Except.bind, pure, Except.pure, strcmp_eq_zero_iff] at h
      by_cases hsn : s ∈ logSystemNames
      · by_cases hvn : v ∈ logValueNames
        · split_ifs at h <;> cases h <;>
            first
              | exact Or.inl rfl
              | exact Or.inr ⟨s, v, rfl, rfl, hsn, hvn, _, _, rfl⟩
        · left
          simp only [logValueNames, List.mem_cons, List.mem_singleton, List.not_mem_nil,
            or_false, not_or] at hvn
          obtain ⟨n1, n2⟩ := hvn
          simp only [n1, n2, if_false, ne_eq, not_true_eq_false, and_false] at h
          cases h
          rfl
      · left
        simp only [logSystemNames, List.mem_cons, List.mem_singleton, List.not_mem_nil,
          or_false, not_or] at hsn
        obtain ⟨n1, n2, n3, n4⟩ := hsn
        simp only [n1, n2, n3, n4, if_false, ne_eq, not_true_eq_false, false_and] at h
        cases h
        rfl

theorem dispatchSet_config (msgBuf : List (Option (List Nat))) (K : Consts) (cfg : Config)
    (p : Config × List Event) (h : dispatchSet msgBuf K cfg = .ok p) :
    p.1 = cfg ∨
    (slot msgBuf 1 = .ok (str "UI") ∧
      ((slot msgBuf 2 = .ok (str "1") ∧ p.1 = ConfigSetUIMode cfg K.IBus_UI_CD53) ∨
       (slot msgBuf 2 = .ok (str "2") ∧ p.1 = ConfigSetUIMode cfg K.IBus_UI_BMBT))) ∨
    (slot msgBuf 1 = .ok (str "LOG") ∧
      ∃ s v, slot msgBuf 2 = .ok s ∧ slot msgBuf 3 = .ok v ∧ s ∈ logSystemNames ∧
        v ∈ logValueNames ∧ ∃ system value, p.1 = ConfigSetLog cfg system value) := by
  unfold dispatchSet at h
  cases hs1 : slot msgBuf 1 with
  | error e => rw [hs1] at h; cases h
  | ok t1 =>
    rw [hs1] at h
    simp only [bind, Except.bind, pure, Except.pure, strcmp_eq_zero_iff] at h
    by_cases h1 : t1 = str "AUDIO"
    · rw [if_pos h1] at h
      cases hs2 : slot msgBuf 2 with
      | error e => rw [hs2] at h; cases h
      | ok t2 =>
        rw [hs2] at h
        simp only at h
        left
        split_ifs at h <;> (cases h; rfl)
    · rw [if_neg h1] at h
      by_cases h2 : t1 = str "UI"
      · rw [if_pos h2] at h
        cases hs2 : slot msgBuf 2 with
        | error e => rw [hs2] at h; cases h
        | ok t2 =>
          rw [hs2] at h
          simp only at h
          by_cases h21 : t2 = str "1"
          · rw [if_pos h21] at h
            right; left
            exact ⟨by rw [h2], Or.inl ⟨by rw [h21], by cases h; rfl⟩⟩
          · rw [if_neg h21] at h
            by_cases h22 : t2 = str "2"
            · rw [if_pos h22] at h
              right; left
              exact ⟨by rw [h2], Or.inr ⟨by rw [h22], by cases h; rfl⟩⟩
            · rw [if_neg h22] at h
              left
              cases h
              rfl
      · rw [if_neg h2] at h
        by_cases h3 : t1 = str "IGN"
        · rw [if_pos h3] at h
          cases hs2 : slot msgBuf 2 with
          | error e => rw [hs2] at h; cases h
          | ok t2 =>
            rw [hs2] at h
            simp only at h
            left
            split_ifs at h <;> (cases h; rfl)
        · rw [if_neg h3] at h
          by_cases h4 : t1 = str "LOG"
          · rw [if_pos h4] at h
            rcases dispatchSetLog_config msgBuf K cfg p h with hp | hp
            · exact Or.inl hp
            · exact Or.inr (Or.inr ⟨by rw [h4], hp⟩)
          · rw [if_neg h4] at h
            left
            cases h
            rfl

theorem dispatch_config (msgBuf : List (Option (List Nat))) (K : Consts) (cfg : Config)
    (p : Config × List Event) (h : dispatch msgBuf K cfg = .ok p) :
    p.1 = cfg ∨
    (slot msgBuf 0 = .ok (str "BOOTLOADER") ∧ p.1 = ConfigSetBootloaderMode cfg 0x01) ∨
    (slot msgBuf 0 = .ok (str "SET") ∧
      ((slot msgBuf 1 = .ok (str "UI") ∧
        ((slot msgBuf 2 = .ok (str "1") ∧ p.1 = ConfigSetUIMode cfg K.IBus_UI_CD53) ∨
         (slot msgBuf 2 = .ok (str "2") ∧ p.1 = ConfigSetUIMode cfg K.IBus_UI_BMBT))) ∨
       (slot msgBuf 1 = .ok (str "LOG") ∧
        ∃ s v, slot msgBuf 2 = .ok s ∧ slot msgBuf 3 = .ok v ∧ s ∈ logSystemNames ∧
          v ∈ logValueNames ∧ ∃ system value, p.1 = ConfigSetLog cfg system value))) := by
  unfold dispatch at h
  cases hs0 : slot msgBuf 0 with
  | error e => rw [hs0] at h; cases h
  | ok t0 =>
    rw [hs0] at h
    simp only [bind, Except.bind, pure, Except.pure, strcmp_eq_zero_iff] at h
    by_cases h1 : t0 = str "BOOTLOADER"
    · rw [if_pos h1] at h
      right; left
      exact ⟨by rw [h1], by cases h; rfl⟩
    · rw [if_neg h1] at h
      by_cases h2 : t0 = str "BTRESET"
      · rw [if_pos h2] at h; left; cases h; rfl
      · rw [if_neg h2] at h
        by_cases h3 : t0 = str "BTRESETPDL"
        · rw [if_pos h3] at h; left; cases h; rfl
        · rw [if_neg h3] at h
          by_cases h4 : t0 = str "GET"
          · rw [if_pos h4] at h
            exact Or.inl (dispatchGet_config msgBuf K cfg p h)
          · rw [if_neg h4] at h
            by_cases h5 : t0 = str "REBOOT"
            · rw [if_pos h5] at h; left; cases h; rfl
            · rw [if_neg h5] at h
              by_cases h6 : t0 = str "SET"
              · rw [if_pos h6] at h
                rcases dispatchSet_config msgBuf K cfg p h with hp | hp | hp
                · exact Or.inl hp
                · exact Or.inr (Or.inr ⟨by rw [h6], Or.inl hp⟩)
                · exact Or.inr (Or.inr ⟨by rw [h6], Or.inr hp⟩)
              · rw [if_neg h6] at h
                left
                split_ifs at h <;> (cases h; rfl)

/-- C20: for every frame that carries all the tokens its branch reads,
`CLIProcess` returns, and the stored UI mode differs afterwards only if the
tokens start with SET UI 1 or SET UI 2, the log flags differ only if they start
with SET LOG, a system name that resolves and a value that resolves, and the
bootloader flag differs only if the first token is BOOTLOADER; a frame of none
of these three forms leaves the whole configuration unchanged. -/
theorem configuration_frame_condition (K : Consts) (cli : CLI_t) (cfg : Config)
    (text rest t0 : List Nat) (ts : List (List Nat))
    (hc : cli.cursorsOk)
    (hq : cli.rxQueue.unread = text ++ CLI_MSG_END_CHAR :: rest)
    (ht : CLI_MSG_END_CHAR ∉ text)
    (htoks : maximalRuns (cstr text) = t0 :: ts)
    (hneed : tokensNeeded (t0 :: ts) ≤ (t0 :: ts).length) :
    ∃ r : Result, CLIProcess K cli cfg = .ok r ∧
      (r.config.uiMode ≠ cfg.uiMode → isSetUIFrame (t0 :: ts)) ∧
      (r.config.log ≠ cfg.log → isSetLogFrame (t0 :: ts)) ∧
      (r.config.bootloaderMode ≠ cfg.bootloaderMode → isBootloaderFrame (t0 :: ts)) ∧
      (¬ isSetUIFrame (t0 :: ts) → ¬ isSetLogFrame (t0 :: ts) →
        ¬ isBootloaderFrame (t0 :: ts) → r.config = cfg) := by
  obtain ⟨r, hr⟩ := (CLIProcess_token_reads K cli cfg text rest t0 ts hc hq ht htoks).1 hneed
  refine ⟨r, hr, ?_⟩
  rw [CLIProcess_frame K cli cfg text rest hc hq ht] at hr
  cases hd : dispatch (slotsOf text) K cfg with
  | error e => rw [hd] at hr; cases hr
  | ok p =>
    rw [hd] at hr
    simp only [Except.map, Except.ok.injEq] at hr
    have hcfg : r.config = p.1 := by rw [← hr]
    have hslots : slotsOf text = (t0 :: ts).map some ++
        List.replicate (1 + text.count 32 - (t0 :: ts).length) none := by
      simp only [slotsOf, htoks]
    rw [hslots] at hd
    have hget := fun i t => slot_ok_get (t0 :: ts)
      (1 + text.count 32 - (t0 :: ts).length) i t
    rcases dispatch_config _ K cfg p hd with hp | ⟨h0, hp⟩ | ⟨h0, ⟨h1, hu⟩ | ⟨h1, hl⟩⟩
    · rw [hcfg, hp]
      exact ⟨fun h => absurd rfl h, fun h => absurd rfl h, fun h => absurd rfl h,
        fun _ _ _ => rfl⟩
    · have hb : isBootloaderFrame (t0 :: ts) := hget 0 _ h0
      rw [hcfg, hp]
      exact ⟨fun h => absurd rfl h, fun h => absurd rfl h, fun _ => hb,
        fun _ _ h => absurd hb h⟩
    · have hu' : isSetUIFrame (t0 :: ts) := by
        refine ⟨hget 0 _ h0, hget 1 _ h1, ?_⟩
        rcases hu with ⟨h2, _⟩ | ⟨h2, _⟩
        · exact Or.inl (hget 2 _ h2)
        · exact Or.inr (hget 2 _ h2)
      rw [hcfg]
      rcases hu with ⟨_, hp⟩ | ⟨_, hp⟩ <;>
        (rw [hp]
         exact ⟨fun _ => hu', fun h => absurd rfl h, fun h => absurd rfl h,
           fun h _ _ => absurd hu' h⟩)
    · obtain ⟨s, v, h2, h3, hs, hv, system, value, hp⟩ := hl
      have hl' : isSetLogFrame (t0 :: ts) :=
        ⟨hget 0 _ h0, hget 1 _ h1, ⟨s, hs, hget 2 _ h2⟩, ⟨v, hv, hget 3 _ h3⟩⟩
      rw [hcfg, hp]
      exact ⟨fun h => absurd rfl h, fun _ => hl', fun h => absurd rfl h,
        fun _ h _ => absurd hl' h⟩

theorem configuration_frame_condition_witness :
    ¬ isSetUIFrame [str "SET", str "UI", str "3"] ∧
    ∃ r : Result,
      CLIProcess sampleConsts (cliOf (str "SET UI 3\r")) emptyConfig = .ok r ∧
      r.config = emptyConfig :=
  have hu : ¬ isSetUIFrame [str "SET", str "UI", str "3"] := by
    intro h
    rcases h.2.2 with h | h <;> revert h <;> decide
  have hl : ¬ isSetLogFrame [str "SET", str "UI", str "3"] := by
    intro h
    have := h.2.1
    revert this
    decide
  have hb : ¬ isBootloaderFrame [str "SET", str "UI", str "3"] := by
    unfold isBootloaderFrame
    decide
  match configuration_frame_condition sampleConsts (cliOf (str "SET UI 3\r")) emptyConfig
      (str "SET UI 3") [] (str "SET") [str "UI", str "3"] (by decide) (by decide) (by decide)
      (by decide) (by decide) with
  | ⟨r, h1, _, _, _, h5⟩ => ⟨hu, r, h1, h5 hu hl hb⟩

end BlueBus
